import Mathlib

/-!
Verification development for the IELTS practice-system ingest pipeline.

The definitions below are a shallow embedding of the Python modules
`develop/scripts/ingest/html_exam_parser.py`, `develop/scripts/ingest/datamodel.py`,
`develop/scripts/ingest/audit_conversion.py` and `develop/html_to_json/answer_parser.py`.
Python strings are modelled as Lean `String`, Python dicts as insertion-ordered
association lists, Python exceptions as `Except String`.  Character-level helpers
model the CPython behaviour on the ASCII range (the corpus handled by the
pipeline); this is noted at each helper.
-/

set_option maxRecDepth 10000

/-- Character code for an opening curly brace. -/
def lbrace : Char := Char.ofNat 123

/-- Character code for a closing curly brace. -/
def rbrace : Char := Char.ofNat 125

/-- Character code for a single quote. -/
def squote : Char := Char.ofNat 39

/-- Models Python `str.isspace` on the ASCII range: space and the
control characters 9–13 (tab, newline, vertical tab, form feed, carriage return). -/
def pyIsSpace (c : Char) : Bool := c.toNat == 32 || (9 ≤ c.toNat && c.toNat ≤ 13)

/-- ASCII uppercase letter test. -/
def isAsciiUpper (c : Char) : Bool := 65 ≤ c.toNat && c.toNat ≤ 90

/-- ASCII lowercase letter test. -/
def isAsciiLower (c : Char) : Bool := 97 ≤ c.toNat && c.toNat ≤ 122

/-- ASCII digit test, models the regex class `\d` on ASCII. -/
def isAsciiDigit (c : Char) : Bool := 48 ≤ c.toNat && c.toNat ≤ 57

/-- ASCII letter test, models the regex class `[A-Za-z]`. -/
def isAsciiAlpha (c : Char) : Bool := isAsciiUpper c || isAsciiLower c

/-- Models Python `str.upper` per character on the ASCII range. -/
def pyCharUpper (c : Char) : Char :=
  if isAsciiLower c then Char.ofNat (c.toNat - 32) else c

/-- Models Python `str.lower` per character on the ASCII range. -/
def pyCharLower (c : Char) : Char :=
  if isAsciiUpper c then Char.ofNat (c.toNat + 32) else c

/-- Models Python `str.upper` on the ASCII range. -/
def pyUpper (s : String) : String := String.mk (s.data.map pyCharUpper)

/-- Models Python `str.lower` on the ASCII range. -/
def pyLower (s : String) : String := String.mk (s.data.map pyCharLower)

/-- Strip on character lists: drop whitespace from both ends. -/
def pyStripL (l : List Char) : List Char :=
  ((l.dropWhile pyIsSpace).reverse.dropWhile pyIsSpace).reverse

/-- Models Python `str.strip()` (whitespace form). -/
def pyStrip (s : String) : String := String.mk (pyStripL s.data)

/-- One step of whitespace splitting, used through `List.foldr`. -/
def wordsStep (c : Char) (acc : List (List Char)) : List (List Char) :=
  if pyIsSpace c then [] :: acc
  else
    match acc with
    | [] => [[c]]
    | w :: ws => (c :: w) :: ws

/-- Models Python `str.split()` (no argument: split on whitespace runs,
dropping empty fields) on character lists. -/
def pyWordsL (l : List Char) : List (List Char) :=
  (l.foldr wordsStep []).filter (fun w => w ≠ [])

/-- Models Python `str.split()` returning strings. -/
def pySplit (s : String) : List String := (pyWordsL s.data).map String.mk

/-- Models `" ".join(words)` on character lists. -/
def joinSpaceL : List (List Char) → List Char
  | [] => []
  | [w] => w
  | w :: ws => w ++ ' ' :: joinSpaceL ws

/-- Models `" ".join(text.split())`: whitespace collapsing used by `Node.get_text`. -/
def collapseWs (s : String) : String := String.mk (joinSpaceL (pyWordsL s.data))

/-- Models `"\n".join(parts)` for lists of strings. -/
def joinNewline : List String → String
  | [] => ""
  | [w] => w
  | w :: ws => w ++ "\n" ++ joinNewline ws

/-- Models `list(dict.fromkeys(items))`: first-seen-order deduplication. -/
def dedupFirst [DecidableEq α] : List α → List α
  | [] => []
  | x :: xs => x :: (dedupFirst xs).filter (fun y => y ≠ x)

/-- List prefix test used to model string scanning. -/
def startsWithL (l p : List Char) : Bool := p.isPrefixOf l

/-- Models the Python substring test `needle in haystack` on character lists. -/
def hasSubstrL : List Char → List Char → Bool
  | l, p => startsWithL l p || (match l with | [] => false | _ :: rest => hasSubstrL rest p)

/-- Models the Python substring test `needle in haystack`. -/
def hasSubstr (hay needle : String) : Bool := hasSubstrL hay.data needle.data

/-- Models Python dict lookup `d.get(k)` for a dict represented as an
insertion-ordered key/value list; a later assignment to the same key wins,
hence the last matching entry is returned. -/
def pyDictGet (l : List (String × String)) (k : String) : Option String :=
  (l.filter (fun kv => kv.1 = k)).getLast? |>.map (fun kv => kv.2)

/-- Models Python `d.get(k) or default` for string dicts: an absent key and a
present-but-empty value both yield the default. -/
def pyGetOr (l : List (String × String)) (k d : String) : String :=
  match pyDictGet l k with
  | some v => if v = "" then d else v
  | none => d

/-!
Lightweight DOM model: `Node` embeds the dataclass `Node` of
`html_exam_parser.py` (tag, attribute map, ordered contents of child nodes and
text runs).  The synthetic root carries tag `"root"` exactly as in
`MiniHTMLParser.__init__`.
-/

mutual

inductive Node where
  | mk (tag : Option String) (attrs : List (String × String)) (contents : List NItem)

inductive NItem where
  | child (n : Node)
  | text (s : String)

end

/-- Tag of a node. -/
def Node.tag : Node → Option String
  | .mk t _ _ => t

/-- Attribute map of a node. -/
def Node.attrs : Node → List (String × String)
  | .mk _ a _ => a

/-- Ordered contents of a node. -/
def Node.contents : Node → List NItem
  | .mk _ _ c => c

/-- Models `Node.add_text`: text is appended only when non-empty. -/
def Node.add_text (n : Node) (data : String) : Node :=
  if data = "" then n
  else .mk n.tag n.attrs (n.contents ++ [NItem.text data])

/-- Models `Node.add_child`. -/
def Node.add_child (n : Node) (c : Node) : Node :=
  .mk n.tag n.attrs (n.contents ++ [NItem.child c])

/-- Models the attribute normalisation `{k: v or "" for k, v in attrs}` of
`handle_starttag`. -/
def normAttrs (attrs : List (String × Option String)) : List (String × String) :=
  attrs.map (fun kv => (kv.1, kv.2.getD ""))

/-- The set of tags never pushed onto the open-element stack, from
`handle_starttag` (line 105 of `html_exam_parser.py`). -/
def noPushTags : List String := ["input", "img", "br", "meta", "link"]

/-- Models `MiniHTMLParser.handle_starttag` restricted to its effect on the
open-element stack.  The stack is a list with the top at the head and the
synthetic root as the last element; the Python list mutation of the top node is
represented by rebuilding the head.  An empty stack is unreachable in the
source (the root is never popped) and is mapped to itself. -/
def handle_starttag (stack : List Node) (tag : String)
    (attrs : List (String × Option String)) : List Node :=
  match stack with
  | [] => []
  | top :: rest =>
    if tag = "br" then top.add_text "\n" :: rest
    else
      let node : Node := .mk (some tag) (normAttrs attrs) []
      let top1 := top.add_child node
      if tag ∈ noPushTags then top1 :: rest else node :: top1 :: rest

/-- Models `MiniHTMLParser.handle_startendtag` on the stack: it never pushes. -/
def handle_startendtag (stack : List Node) (tag : String)
    (attrs : List (String × Option String)) : List Node :=
  match stack with
  | [] => []
  | top :: rest =>
    if tag = "br" then top.add_text "\n" :: rest
    else top.add_child (.mk (some tag) (normAttrs attrs) []) :: rest

/-- Models `MiniHTMLParser.handle_endtag`: pop open elements while more than
the root remains, stopping after popping a node whose tag matches. -/
def handle_endtag (stack : List Node) (tag : String) : List Node :=
  match stack with
  | [] => []
  | [root] => [root]
  | node :: rest => if node.tag = some tag then rest else handle_endtag rest tag

/-- The synthetic root node created by `MiniHTMLParser.__init__`. -/
def rootNode : Node := .mk (some "root") [] []

/-- Sample open element used in concrete stack scenarios. -/
def divNode : Node := .mk (some "div") [] []

/-- Second sample open element used in concrete stack scenarios. -/
def spanNode : Node := .mk (some "span") [] []

theorem handle_endtag_no_match (stack : List Node) (tag : String)
    (h : ∀ m ∈ stack.dropLast, m.tag ≠ some tag) (hne : stack ≠ []) :
    handle_endtag stack tag = [stack.getLast hne] := by
  induction stack with
  | nil => exact absurd rfl hne
  | cons a rest ih =>
    cases rest with
    | nil => rfl
    | cons b rest2 =>
      have hdrop : (a :: b :: rest2).dropLast = a :: (b :: rest2).dropLast := rfl
      have ha : a.tag ≠ some tag := by
        apply h
        rw [hdrop]
        exact List.mem_cons_self a _
      have hrest : ∀ m ∈ (b :: rest2).dropLast, m.tag ≠ some tag := by
        intro m hm
        apply h
        rw [hdrop]
        exact List.mem_cons_of_mem a hm
      have := ih hrest (by simp)
      simpa [handle_endtag, ha, List.getLast] using this

theorem handle_endtag_match (pre : List Node) (node : Node) (rest : List Node)
    (tag : String) (hpre : ∀ m ∈ pre, m.tag ≠ some tag)
    (hnode : node.tag = some tag) (hrest : rest ≠ []) :
    handle_endtag (pre ++ node :: rest) tag = rest := by
  induction pre with
  | nil =>
    cases rest with
    | nil => exact absurd rfl hrest
    | cons b r2 => simp [handle_endtag, hnode]
  | cons a pre2 ih =>
    have ha : a.tag ≠ some tag := hpre a (by simp)
    have hpre2 : ∀ m ∈ pre2, m.tag ≠ some tag := fun m hm => hpre m (by simp [hm])
    have hne2 : pre2 ++ node :: rest ≠ [] := by simp
    have step : handle_endtag (a :: (pre2 ++ node :: rest)) tag
        = handle_endtag (pre2 ++ node :: rest) tag := by
      cases hsplit : pre2 ++ node :: rest with
      | nil => exact absurd hsplit hne2
      | cons b r2 => simp [handle_endtag, hsplit, ha]
    simpa [step] using ih hpre2

/-- C5 counterexample: with only a `div` open above the root, the end tag
`span` matches nothing, yet `handle_endtag` empties the stack down to the root
instead of leaving it unchanged. -/
theorem c5_unmatched_endtag_clears_stack :
    handle_endtag [divNode, rootNode] "span" = [rootNode] ∧
      ([rootNode] : List Node) ≠ [divNode, rootNode] := by
  constructor
  · rfl
  · intro h
    simp at h

/-- C5 (amended): on an end tag, `handle_endtag` pops the open-element stack up
to and including the nearest matching ancestor; when no open element above the
synthetic root matches, it pops every element above the root (leaving only the
root), rather than leaving the stack unchanged. -/
theorem c5_endtag_stack_behaviour (stack : List Node) (tag : String) :
    ((∀ m ∈ stack.dropLast, m.tag ≠ some tag) →
      ∀ hne : stack ≠ [], handle_endtag stack tag = [stack.getLast hne]) ∧
    (∀ pre node rest, stack = pre ++ node :: rest →
      (∀ m ∈ pre, m.tag ≠ some tag) → node.tag = some tag → rest ≠ [] →
      handle_endtag stack tag = rest) := by
  constructor
  · intro h hne
    exact handle_endtag_no_match stack tag h hne
  · intro pre node rest hsplit hpre hnode hrest
    subst hsplit
    exact handle_endtag_match pre node rest tag hpre hnode hrest

/-- C5 witness: a concrete three-element stack where the nearest matching
ancestor is the middle element; the end tag pops through it. -/
theorem c5_endtag_stack_behaviour_witness :
    handle_endtag [spanNode, divNode, rootNode] "div" = [rootNode] :=
  (c5_endtag_stack_behaviour [spanNode, divNode, rootNode] "div").2
    [spanNode] divNode [rootNode] rfl
    (by intro m hm; simp at hm; subst hm; simp [spanNode, Node.tag])
    rfl (by simp)

/-- C6 counterexample: `hr` is claimed to be a void element that is never
pushed, but `handle_starttag` pushes it (the stack grows). -/
theorem c6_hr_is_pushed :
    (handle_starttag [rootNode] "hr" []).length ≠ ([rootNode] : List Node).length := by
  decide

/-- C6 (amended): the tags never pushed by `handle_starttag` are exactly
`input`, `img`, `br`, `meta`, `link`; the tags `hr` and `source`, although
void elements in HTML, are pushed onto the open-element stack. -/
theorem c6_void_elements_not_pushed (stack : List Node) (tag : String)
    (attrs : List (String × Option String)) :
    (tag ∈ ["br", "img", "input", "meta", "link"] →
      (handle_starttag stack tag attrs).length = stack.length) ∧
    (tag ∈ ["hr", "source"] → stack ≠ [] →
      (handle_starttag stack tag attrs).length = stack.length + 1) := by
  constructor
  · intro htag
    cases stack with
    | nil => simp [handle_starttag]
    | cons top rest =>
      fin_cases htag <;> simp [handle_starttag, noPushTags]
  · intro htag hne
    cases stack with
    | nil => exact absurd rfl hne
    | cons top rest =>
      fin_cases htag <;> simp [handle_starttag, noPushTags]

/-- C6 witness: concrete checks that `img` leaves the stack length unchanged
while `source` grows it. -/
theorem c6_void_elements_not_pushed_witness :
    (handle_starttag [rootNode] "img" []).length = ([rootNode] : List Node).length ∧
    (handle_starttag [rootNode] "source" []).length = ([rootNode] : List Node).length + 1 :=
  ⟨(c6_void_elements_not_pushed [rootNode] "img" []).1 (by simp),
   (c6_void_elements_not_pushed [rootNode] "source" []).2 (by simp) (by simp)⟩

/-!
Exam data model, embedding `develop/scripts/ingest/datamodel.py`.
-/

/-- Difficulty enumeration `DifficultyLevel` (P1/P2/P3 mapped to 1/2/3). -/
inductive DifficultyLevel where
  | p1
  | p2
  | p3
deriving DecidableEq

/-- Numeric value of a difficulty level (`metadata.difficulty`). -/
def DifficultyLevel.value : DifficultyLevel → Int
  | .p1 => 1
  | .p2 => 2
  | .p3 => 3

/-- Models the enum constructor `DifficultyLevel(value)`: raises on anything
but 1, 2, 3. -/
def DifficultyLevel.ofValue : Int → Except String DifficultyLevel
  | 1 => .ok .p1
  | 2 => .ok .p2
  | 3 => .ok .p3
  | _ => .error "invalid difficulty value"

/-- Question-type enumeration `QuestionType` (15 codes). -/
inductive QuestionType where
  | trueFalseNg
  | yesNoNg
  | multipleChoiceSingle
  | multipleChoiceMultiple
  | sentenceCompletion
  | summaryCompletion
  | notesCompletion
  | tableCompletion
  | shortAnswer
  | paragraphMatching
  | headingMatching
  | featureMatching
  | statementMatching
  | sentenceEndingMatching
  | classification
deriving DecidableEq

/-- String code of a question type, as in the Python `str` enum. -/
def QuestionType.value : QuestionType → String
  | .trueFalseNg => "true-false-ng"
  | .yesNoNg => "yes-no-ng"
  | .multipleChoiceSingle => "multiple-choice-single"
  | .multipleChoiceMultiple => "multiple-choice-multiple"
  | .sentenceCompletion => "sentence-completion"
  | .summaryCompletion => "summary-completion"
  | .notesCompletion => "notes-completion"
  | .tableCompletion => "table-completion"
  | .shortAnswer => "short-answer"
  | .paragraphMatching => "paragraph-matching"
  | .headingMatching => "heading-matching"
  | .featureMatching => "feature-matching"
  | .statementMatching => "statement-matching"
  | .sentenceEndingMatching => "sentence-ending-matching"
  | .classification => "classification"

/-- Models the enum constructor `QuestionType(code)`: raises on unknown codes. -/
def QuestionType.ofValue (s : String) : Except String QuestionType :=
  if s = "true-false-ng" then .ok .trueFalseNg
  else if s = "yes-no-ng" then .ok .yesNoNg
  else if s = "multiple-choice-single" then .ok .multipleChoiceSingle
  else if s = "multiple-choice-multiple" then .ok .multipleChoiceMultiple
  else if s = "sentence-completion" then .ok .sentenceCompletion
  else if s = "summary-completion" then .ok .summaryCompletion
  else if s = "notes-completion" then .ok .notesCompletion
  else if s = "table-completion" then .ok .tableCompletion
  else if s = "short-answer" then .ok .shortAnswer
  else if s = "paragraph-matching" then .ok .paragraphMatching
  else if s = "heading-matching" then .ok .headingMatching
  else if s = "feature-matching" then .ok .featureMatching
  else if s = "statement-matching" then .ok .statementMatching
  else if s = "sentence-ending-matching" then .ok .sentenceEndingMatching
  else if s = "classification" then .ok .classification
  else .error "invalid question type code"

/-- JSON-like values, used to model question `content` dicts and the payload
produced by `exam_to_payload`.  Python dicts are insertion-ordered key/value
lists. -/
inductive JValue where
  | null
  | b (v : Bool)
  | i (v : Int)
  | s (v : String)
  | arr (items : List JValue)
  | obj (entries : List (String × JValue))

/-- AnswerValue: a single string or an ordered sequence of strings. -/
inductive AnswerValue where
  | str (v : String)
  | seq (items : List String)
deriving DecidableEq

/-- ChoiceOption dict with `label` and `text` fields. -/
structure ChoiceOption where
  label : String
  text : String
deriving DecidableEq

/-- Paragraph with normalized content and an optional label. -/
structure Paragraph where
  content : String
  label : Option String
deriving DecidableEq

/-- Passage: title plus ordered paragraphs. -/
structure Passage where
  title : String
  paragraphs : List Paragraph
deriving DecidableEq

/-- Question record, mirroring the dataclass `Question`.  The `content`
TypedDicts are modelled as ordered key/value maps of JSON-like values. -/
structure Question where
  questionNumber : Int
  type : QuestionType
  instruction : String
  content : List (String × JValue)
  answer : AnswerValue
  explanation : Option String := none
  checkboxGroupName : Option String := none
  occupiesQuestions : Option Int := none
  canReuse : Option Bool := none

/-- Metadata record. -/
structure Metadata where
  difficulty : DifficultyLevel
  totalQuestions : Int
  questionTypes : List QuestionType

/-- Exam record. -/
structure Exam where
  id : String
  passage : Passage
  questions : List Question
  metadata : Metadata

/-- Models Python `str.isdigit` on ASCII digits (true only on a non-empty
all-digit string). -/
def pyIsDigit (s : String) : Bool := !s.data.isEmpty && s.data.all isAsciiDigit

/-- The id invariant of `Exam.validate_consistency`: starts with `e`, length 4,
digits after the first character (`id.startswith("e")`, `len(id) == 4`,
`id[1:].isdigit()`), computed on the character list. -/
def idInvariant (e : Exam) : Bool :=
  startsWithL e.id.data ['e'] && e.id.data.length == 4 &&
    pyIsDigit (String.mk (e.id.data.drop 1))

/-- The totalQuestions invariant of `Exam.validate_consistency`. -/
def totalInvariant (e : Exam) : Bool :=
  e.metadata.totalQuestions == (e.questions.length : Int)

/-- The questionTypes invariant of `Exam.validate_consistency`: first-seen
order deduplication of the actual types. -/
def typesInvariant (e : Exam) : Bool :=
  dedupFirst (e.questions.map Question.type) == e.metadata.questionTypes

/-- Ceiling of question numbers per difficulty (`allowed_end`). -/
def allowed_end : DifficultyLevel → Int
  | .p1 => 14
  | .p2 => 27
  | .p3 => 40

/-- The contiguous integer run of the given length starting at `start`,
modelling `expected = [numbers[0] + idx for idx in range(len(numbers))]`. -/
def contiguousFrom (start : Int) (len : Nat) : List Int :=
  (List.range len).map (fun idx => start + Int.ofNat idx)

/-- Models `Exam.validate_consistency`.  The difficulty-conventional start
offset check (invariant 5) issues a `warnings.warn`, which does not raise, so
it has no effect on the result and is not represented. -/
def validate_consistency (e : Exam) : Except String Unit :=
  if ¬ idInvariant e then .error "illegal exam id"
  else if ¬ totalInvariant e then .error "totalQuestions differs from question count"
  else if ¬ typesInvariant e then .error "questionTypes does not match actual types"
  else
    match e.questions.map Question.questionNumber with
    | [] => .error "question list must not be empty"
    | n0 :: rest =>
      if n0 :: rest ≠ contiguousFrom n0 (rest.length + 1) then
        .error "question numbers not contiguous"
      else if rest.getLastD n0 > allowed_end e.metadata.difficulty then
        .error "question number exceeds difficulty ceiling"
      else .ok ()

/-- Sorted question numbers of an exam (the sorting the claim refers to; the
source itself never sorts inside `validate_consistency`). -/
def sortedNums (e : Exam) : List Int :=
  (e.questions.map Question.questionNumber).insertionSort (fun a b => a ≤ b)

/-- A contiguous run is sorted. -/
theorem contiguousFrom_sorted (s : Int) (l : Nat) :
    (contiguousFrom s l).Sorted (fun a b => a ≤ b) := by
  unfold contiguousFrom
  show ((List.range l).map (fun idx => s + Int.ofNat idx)).Pairwise (fun a b => a ≤ b)
  rw [List.pairwise_map]
  refine (List.pairwise_le_range l).imp ?_
  intro a b hab
  have h2 : a ≤ b := hab
  show s + Int.ofNat a ≤ s + Int.ofNat b
  exact add_le_add_left (Int.ofNat_le.mpr h2) s

/-- Minimal question used to build concrete exams. -/
def mkQ (n : Int) : Question :=
  { questionNumber := n, type := .trueFalseNg, instruction := "", content := [],
    answer := .str "TRUE" }

/-- Exam whose question list is out of order: numbers 1, 3, 2. -/
def c4Exam : Exam :=
  { id := "e001", passage := { title := "T", paragraphs := [] },
    questions := [mkQ 1, mkQ 3, mkQ 2],
    metadata := { difficulty := .p1, totalQuestions := 3,
                  questionTypes := [.trueFalseNg] } }

/-- C4 counterexample: `c4Exam` satisfies the id, totalQuestions and
questionTypes invariants, its question list is non-empty, its sorted question
numbers are the contiguous gap-free duplicate-free run `[1, 2, 3]` starting at
their first element, every number is within the difficulty ceiling — yet
`validate_consistency` raises, because the code compares the number list in
question order (here `[1, 3, 2]`) against the contiguous run, without
sorting. -/
theorem c4_sorted_contiguous_still_raises :
    idInvariant c4Exam = true ∧ totalInvariant c4Exam = true ∧
    typesInvariant c4Exam = true ∧ c4Exam.questions ≠ [] ∧
    sortedNums c4Exam = contiguousFrom ((sortedNums c4Exam).headD 0) 3 ∧
    (sortedNums c4Exam).Nodup ∧
    (∀ n ∈ sortedNums c4Exam, n ≤ allowed_end c4Exam.metadata.difficulty) ∧
    validate_consistency c4Exam = .error "question numbers not contiguous" := by
  refine ⟨by decide, by decide, by decide, by simp [c4Exam], by decide, by decide,
    by decide, by rfl⟩

/-- C4 (amended): under the id, totalQuestions and questionTypes invariants,
`validate_consistency` raises on an empty question list; on a non-empty list it
succeeds exactly when the question-number list, in question order (not
sorted), is the contiguous run starting at its own first element and its last
element is within the difficulty ceiling.  In particular a gap or duplicate in
the sorted numbers always raises, but a merely out-of-order contiguous list
raises as well. -/
theorem c4_validate_contiguity (e : Exam)
    (hid : idInvariant e = true) (htot : totalInvariant e = true)
    (htypes : typesInvariant e = true) :
    (e.questions = [] → validate_consistency e = .error "question list must not be empty") ∧
    (∀ n0 rest, e.questions.map Question.questionNumber = n0 :: rest →
      (validate_consistency e = .ok () ↔
        (n0 :: rest = contiguousFrom n0 (rest.length + 1) ∧
          rest.getLastD n0 ≤ allowed_end e.metadata.difficulty))) ∧
    (e.questions ≠ [] →
      sortedNums e ≠ contiguousFrom ((sortedNums e).headD 0) (sortedNums e).length →
      ∃ msg, validate_consistency e = .error msg) := by
  have hval : validate_consistency e =
      match e.questions.map Question.questionNumber with
      | [] => .error "question list must not be empty"
      | n0 :: rest =>
        if n0 :: rest ≠ contiguousFrom n0 (rest.length + 1) then
          .error "question numbers not contiguous"
        else if rest.getLastD n0 > allowed_end e.metadata.difficulty then
          .error "question number exceeds difficulty ceiling"
        else .ok () := by
    unfold validate_consistency
    rw [hid, htot, htypes]
    simp
  have hbranch : ∀ n0 : Int, ∀ rest : List Int,
      e.questions.map Question.questionNumber = n0 :: rest →
      validate_consistency e =
        (if n0 :: rest ≠ contiguousFrom n0 (rest.length + 1) then
          Except.error "question numbers not contiguous"
        else if rest.getLastD n0 > allowed_end e.metadata.difficulty then
          Except.error "question number exceeds difficulty ceiling"
        else Except.ok ()) := by
    intro n0 rest hmap
    rw [hval, hmap]
  refine ⟨?_, ?_, ?_⟩
  · intro hq
    rw [hval, hq]
    rfl
  · intro n0 rest hmap
    rw [hbranch n0 rest hmap]
    by_cases hc : n0 :: rest = contiguousFrom n0 (rest.length + 1)
    · rw [if_neg (by simp [hc])]
      by_cases hl : rest.getLastD n0 > allowed_end e.metadata.difficulty
      · rw [if_pos hl]
        constructor
        · intro hcontra
          exact Except.noConfusion hcontra
        · intro hrhs
          exact absurd hrhs.2 (not_le.mpr hl)
      · rw [if_neg hl]
        exact ⟨fun _ => ⟨hc, not_lt.mp hl⟩, fun _ => rfl⟩
    · rw [if_pos (by simpa using hc)]
      constructor
      · intro hcontra
        exact Except.noConfusion hcontra
      · intro hrhs
        exact absurd hrhs.1 hc
  · intro hne hsorted
    cases hres : validate_consistency e with
    | error msg => exact ⟨msg, rfl⟩
    | ok u =>
      exfalso
      apply hsorted
      cases hmap : e.questions.map Question.questionNumber with
      | nil =>
        exact absurd (List.map_eq_nil_iff.mp hmap) hne
      | cons n0 rest =>
        have hif := hres
        rw [hbranch n0 rest hmap] at hif
        by_cases hc : n0 :: rest = contiguousFrom n0 (rest.length + 1)
        · have hsortEq : sortedNums e = n0 :: rest := by
            unfold sortedNums
            rw [hmap]
            nth_rewrite 1 [hc]
            rw [List.Sorted.insertionSort_eq (contiguousFrom_sorted n0 (rest.length + 1))]
            exact hc.symm
          rw [hsortEq]
          exact hc
        · rw [if_pos (by simpa using hc)] at hif
          exact Except.noConfusion hif

/-- C4 witness: a well-formed exam with contiguous in-order numbers validates. -/
def c4GoodExam : Exam :=
  { id := "e001", passage := { title := "T", paragraphs := [] },
    questions := [mkQ 1, mkQ 2],
    metadata := { difficulty := .p1, totalQuestions := 2,
                  questionTypes := [.trueFalseNg] } }

theorem c4_validate_contiguity_witness :
    validate_consistency c4GoodExam = .ok () :=
  ((c4_validate_contiguity c4GoodExam (by decide) (by decide) (by decide)).2.1
    1 [2] rfl).mpr ⟨by decide, by decide⟩

/-!
Models of `html.unescape` (restricted to the basic named references and
numeric references; the corpus exercised by the claims contains no other
entities) and of the `Node` text/query API of `html_exam_parser.py`.
-/

/-- Parses one character or entity reference after a `&`, returning the
decoded character and the number of input characters consumed. -/
def entityAfterAmp (rest : List Char) : Option (Char × Nat) :=
  if startsWithL rest "amp;".data then some ('&', 4)
  else if startsWithL rest "lt;".data then some ('<', 3)
  else if startsWithL rest "gt;".data then some ('>', 3)
  else if startsWithL rest "quot;".data then some ('"', 5)
  else if startsWithL rest "apos;".data then some (squote, 5)
  else
    match rest with
    | '#' :: ds =>
      let digits := ds.takeWhile isAsciiDigit
      if digits ≠ [] && startsWithL (ds.drop digits.length) [';'] then
        some (Char.ofNat (digitsToNatAux digits), digits.length + 2)
      else none
    | _ => none
where
  digitsToNatAux (ds : List Char) : Nat :=
    ds.foldl (fun acc c => acc * 10 + (c.toNat - 48)) 0

/-- Fueled scan decoding entity references; the fuel is the input length,
which always suffices because every step consumes at least one character. -/
def pyUnescapeGo : Nat → List Char → List Char
  | 0, l => l
  | _ + 1, [] => []
  | fuel + 1, c :: rest =>
    if c = '&' then
      match entityAfterAmp rest with
      | some (d, k) => d :: pyUnescapeGo fuel (rest.drop k)
      | none => c :: pyUnescapeGo fuel rest
    else c :: pyUnescapeGo fuel rest

/-- Models `html.unescape` on the entity references listed above. -/
def pyUnescape (s : String) : String :=
  String.mk (pyUnescapeGo s.data.length s.data)

/-- Converts a run of ASCII digits to a number, modelling `int(...)` on a
digit string. -/
def digitsToNat (ds : List Char) : Nat :=
  ds.foldl (fun acc c => acc * 10 + (c.toNat - 48)) 0

/-- First maximal digit run of a string, modelling `re.search(r"\d+", ...)`. -/
def firstDigitRun : List Char → Option (List Char)
  | [] => none
  | c :: rest =>
    if isAsciiDigit c then some (c :: rest.takeWhile isAsciiDigit)
    else firstDigitRun rest

/-- Models `int(re.search(r"\d+", s).group())` when the search succeeds. -/
def searchIntL (l : List Char) : Option Int :=
  (firstDigitRun l).map (fun ds => Int.ofNat (digitsToNat ds))

/-- Models `re.sub(r"^\d+\s*", "", text)` followed by `.strip()`. -/
def stripLeadingNumber (s : String) : String :=
  match s.data with
  | c :: rest =>
    if isAsciiDigit c then
      pyStrip (String.mk ((rest.dropWhile isAsciiDigit).dropWhile pyIsSpace))
    else pyStrip s
  | [] => pyStrip s

/-- Attribute lookup `node.attrs.get(key)`. -/
def attrsGet (n : Node) (k : String) : Option String := pyDictGet n.attrs k

/-- Attribute lookup with default, `node.attrs.get(key, default)`. -/
def attrsGetD (n : Node) (k d : String) : String := (pyDictGet n.attrs k).getD d

/-- Models `Node._match`: optional tag equality plus attribute conditions,
where the `class` attribute is matched by token membership and every other
attribute by string equality; an absent attribute never matches. -/
def nodeMatch (node : Node) (tag : Option String) (attrs : List (String × String)) : Bool :=
  (match tag with
   | some t => node.tag == some t
   | none => true) &&
  attrs.all (fun kv =>
    match pyDictGet node.attrs kv.1 with
    | some actual =>
      if kv.1 = "class" then (pySplit actual).contains kv.2 else actual == kv.2
    | none => false)

mutual

/-- Matches yielded from inside one node (its descendants, in document
order). -/
def nodeIterInside (n : Node) (tag : Option String) (attrs : List (String × String)) : List Node :=
  match n with
  | .mk _ _ contents => iterList contents tag attrs

/-- Document-order list of the descendants matched by `Node.iter`: each child
is yielded before its own descendants. -/
def iterList : List NItem → Option String → List (String × String) → List Node
  | [], _, _ => []
  | .text _ :: rest, tag, attrs => iterList rest tag attrs
  | .child m :: rest, tag, attrs =>
    (if nodeMatch m tag attrs then [m] else []) ++
      nodeIterInside m tag attrs ++ iterList rest tag attrs

end

/-- Models `Node.iter(tag, **attrs)` as the full match list. -/
def Node.iterAll (n : Node) (tag : Option String) (attrs : List (String × String)) : List Node :=
  iterList n.contents tag attrs

/-- Models `Node.find_first`: the first node yielded by `iter`. -/
def Node.find_first (n : Node) (tag : Option String) (attrs : List (String × String)) : Option Node :=
  (n.iterAll tag attrs).head?

/-- Models `Node.iter_children`: direct matching children only. -/
def Node.iter_children (n : Node) (tag : Option String) (attrs : List (String × String)) : List Node :=
  n.contents.filterMap (fun it =>
    match it with
    | .child m => if nodeMatch m tag attrs then some m else none
    | .text _ => none)

mutual

/-- Models `Node.get_text(strip)`: join the text parts (a `br` child becomes a
newline, other children recurse without stripping), unescape, and collapse
whitespace when stripping. -/
def Node.get_text (n : Node) (strip : Bool) : String :=
  match n with
  | .mk _ _ contents =>
    let text := pyUnescape (String.mk ((getTextParts contents).foldr (· ++ ·) []))
    if strip then collapseWs text else text

/-- Text parts of a contents list, as in the loop of `Node.get_text`. -/
def getTextParts : List NItem → List (List Char)
  | [] => []
  | .text s :: rest => s.data :: getTextParts rest
  | .child (Node.mk t a c) :: rest =>
    (if t = some "br" then ['\n']
     else (Node.get_text (.mk t a c) false).data) :: getTextParts rest

end

/-!
Choice-style question groups: embedding of `_gather_instruction`,
`_iter_choice_items`, `_extract_question_number`, `_extract_question_prompt`,
`_extract_choice_options`, `_fallback_boolean_options`, `_infer_choice_type`
and `_parse_choice_group`.
-/

/-- Class token list of a node (`item.attrs.get("class", "").split()`). -/
def classSplit (item : Node) : List String := pySplit (attrsGetD item "class" "")

/-- Loop body of `_gather_instruction`: walk the direct children, stop at the
first `question-item` (or `div.options-pool`) marker, collect each child's
text plus the text of `li` children of a `ul`. -/
def gatherLoop : List NItem → List String
  | [] => []
  | .text _ :: rest => gatherLoop rest
  | .child item :: rest =>
    let classes := classSplit item
    if classes.contains "question-item" then []
    else if item.tag == some "div" && classes.contains "options-pool" then []
    else
      let t := item.get_text true
      let base := if t ≠ "" then [t] else []
      let lis :=
        if item.tag == some "ul" then
          (item.iter_children (some "li") []).filterMap (fun li =>
            let lt := li.get_text true
            if lt ≠ "" then some lt else none)
        else []
      base ++ lis ++ gatherLoop rest

/-- Models `_gather_instruction`: collected texts, first-seen deduplicated,
newline-joined. -/
def gather_instruction (group : Node) : String :=
  joinNewline (dedupFirst (gatherLoop group.contents))

/-- The known question-item class markers of `_iter_choice_items`. -/
def knownChoiceClasses : List String :=
  ["question-item", "tfng-item", "yn-item", "mcq-item", "choice-item"]

/-- Models `_iter_choice_items`: direct `div` children recognised either by a
known class token or by containing both a `strong` and an `input`. -/
def iter_choice_items (group : Node) : List Node :=
  group.contents.filterMap (fun it =>
    match it with
    | .text _ => none
    | .child item =>
      if item.tag ≠ some "div" then none
      else
        let classes := classSplit item
        if classes.any (fun c => knownChoiceClasses.contains c) then some item
        else if (item.find_first (some "strong") []).isSome &&
            (item.find_first (some "input") []).isSome then some item
        else none)

/-- Models `_extract_question_number`: digits of the first `strong`
descendant. -/
def extract_question_number (node : Node) : Option Int :=
  match node.find_first (some "strong") [] with
  | none => none
  | some nd => searchIntL (nd.get_text true).data

/-- Models `_extract_question_prompt`: first `p` descendant (or the node
itself), with the leading number stripped. -/
def extract_question_prompt (node : Node) : String :=
  match node.find_first (some "p") [] with
  | some p => stripLeadingNumber (p.get_text true)
  | none => stripLeadingNumber (node.get_text true)

/-- Separator class `[\s\.\-\):：]` of `_strip_leading_label`. -/
def isLabelSep (c : Char) : Bool :=
  pyIsSpace c || c = '.' || c = '-' || c = ')' || c = ':' || c = '：'

/-- Models `_strip_leading_label`: remove a case-insensitive occurrence of the
label followed by at least one separator from the front, then strip (the
`.strip()` of the source applies whether or not the pattern matched). -/
def strip_leading_label (text label : String) : String :=
  if label = "" then text
  else
    let tl := text.data
    let ll := label.data
    if (tl.take ll.length).map pyCharLower = ll.map pyCharLower then
      let rest := tl.drop ll.length
      let run := rest.takeWhile isLabelSep
      if run.length == 0 then pyStrip text
      else pyStrip (String.mk (rest.drop run.length))
    else pyStrip text

/-- Separator class `(?:[\.)]|\s)` of the option-prefix regex in
`_extract_choice_options`. -/
def isOptSep (c : Char) : Bool := c = '.' || c = ')' || pyIsSpace c

/-- Backtracking for the greedy separator run: the largest split point
leaving a non-empty newline-free remainder. -/
def backtrackSep (rest : List Char) : Nat → Option Nat
  | 0 => none
  | k + 1 =>
    let body := rest.drop (k + 1)
    if body ≠ [] && !body.contains '\n' then some (k + 1) else backtrackSep rest k

/-- Models `re.match(r"^([A-Z])(?:[\.)]|\s)+(.+)$", text)`: an uppercase
letter, at least one separator, then a non-empty remainder.  Inputs reaching
this helper come from `get_text` with whitespace collapsed, hence contain no
newline; a newline-containing remainder is treated as a failed match. -/
def matchOptionLetter (text : String) : Option (Char × String) :=
  match text.data with
  | c :: rest =>
    if isAsciiUpper c then
      let run := rest.takeWhile isOptSep
      if run.length == 0 then none
      else
        match backtrackSep rest run.length with
        | some k => some (c, String.mk (rest.drop k))
        | none => none
    else none
  | [] => none

/-- Models the per-label loop body of `_extract_choice_options`. -/
def choiceOptionOfLabel (labelNode : Node) : Option ChoiceOption :=
  let text := pyStrip (labelNode.get_text true)
  if text = "" then none
  else
    let value : Option String :=
      match labelNode.find_first (some "input") [] with
      | some inp => attrsGet inp "value"
      | none => none
    let labelKey0 := value.getD ""
    let pair :=
      if labelKey0 = "" then
        match matchOptionLetter text with
        | some (c, rest2) => (String.mk [c], pyStrip rest2)
        | none => (labelKey0, text)
      else (labelKey0, strip_leading_label text labelKey0)
    let labelKey := if pair.1 = "" then pair.2 else pair.1
    some { label := labelKey, text := pair.2 }

/-- Models `_extract_choice_options`: one option per non-empty `label`
descendant. -/
def extract_choice_options (item : Node) : List ChoiceOption :=
  (item.iterAll (some "label") []).filterMap choiceOptionOfLabel

/-- Models the `_build_options` helper of `_fallback_boolean_options`. -/
def build_options (labels : List String) : List ChoiceOption :=
  labels.map (fun l => { label := l, text := l })

/-- Models `_fallback_boolean_options`: synthesise boolean options when the
uppercased instruction contains all three tokens. -/
def fallback_boolean_options (instruction : String) : List ChoiceOption :=
  let upper := pyUpper instruction
  if hasSubstr upper "TRUE" && hasSubstr upper "FALSE" && hasSubstr upper "NOT GIVEN" then
    build_options ["True", "False", "Not Given"]
  else if hasSubstr upper "YES" && hasSubstr upper "NO" && hasSubstr upper "NOT GIVEN" then
    build_options ["Yes", "No", "Not Given"]
  else []

/-- One-word-with-following-whitespace-and-letters step of the
`choose\s+(two|three|four)\s+letters` pattern. -/
def chooseWordTail (r : List Char) (w : String) : Bool :=
  startsWithL r w.data &&
  (let r3 := r.drop w.data.length
   let ws2 := r3.takeWhile pyIsSpace
   decide (ws2.length ≥ 1) && startsWithL (r3.drop ws2.length) "letters".data)

/-- Match of the `choose\s+(two|three|four)\s+letters` pattern at the head of
an (already lowercased) character list. -/
def chooseLettersAt (l : List Char) : Bool :=
  startsWithL l "choose".data &&
  (let r1 := l.drop 6
   let ws1 := r1.takeWhile pyIsSpace
   decide (ws1.length ≥ 1) &&
   (let r2 := r1.drop ws1.length
    chooseWordTail r2 "two" || chooseWordTail r2 "three" || chooseWordTail r2 "four"))

/-- Any-suffix search combinator, modelling `re.search`. -/
def anySuffix (p : List Char → Bool) : List Char → Bool
  | [] => p []
  | c :: rest => p (c :: rest) || anySuffix p rest

/-- Models `re.search(r"choose\s+(two|three|four)\s+letters", instruction,
re.I)` via lowercasing. -/
def searchChooseLetters (instruction : String) : Bool :=
  anySuffix chooseLettersAt (pyLower instruction).data

/-- Models `_infer_choice_type`: the set of stripped uppercased option texts
decides the boolean types, else the instruction decides multi/single choice. -/
def infer_choice_type (options : List ChoiceOption) (instruction : String) : QuestionType :=
  let normalized := (options.map (fun o => pyUpper (pyStrip o.text))).toFinset
  if normalized = ({"TRUE", "FALSE", "NOT GIVEN"} : Finset String) then .trueFalseNg
  else if normalized = ({"YES", "NO", "NOT GIVEN"} : Finset String) then .yesNoNg
  else if searchChooseLetters instruction then .multipleChoiceMultiple
  else .multipleChoiceSingle

/-- JSON encoding of a ChoiceOption list as stored in question content. -/
def choiceOptionsJ (options : List ChoiceOption) : JValue :=
  .arr (options.map (fun o => .obj [("label", .s o.label), ("text", .s o.text)]))

/-- Models `answers.get(f"q{number}") or ""`. -/
def answerFor (answers : List (String × String)) (number : Int) : String :=
  pyGetOr answers ("q" ++ toString number) ""

/-- The effective option list of a choice item: extracted options, or the
boolean fallback when none were extracted and the fallback is non-empty. -/
def effectiveChoiceOptions (instruction : String) (item : Node) : List ChoiceOption :=
  let options0 := extract_choice_options item
  if options0 = [] then
    let fb := fallback_boolean_options instruction
    if fb ≠ [] then fb else options0
  else options0

/-- Per-item body of the `_parse_choice_group` loop: items without an
extractable number are skipped. -/
def choiceQuestionOfItem (instruction : String) (answers : List (String × String))
    (item : Node) : Option Question :=
  match extract_question_number item with
  | none => none
  | some number =>
    let question_text := extract_question_prompt item
    let options := effectiveChoiceOptions instruction item
    let question_type := infer_choice_type options instruction
    some { questionNumber := number, type := question_type, instruction := instruction,
           content := [("questionText", JValue.s question_text),
                       ("options", choiceOptionsJ options)],
           answer := .str (answerFor answers number) }

/-- Models `_parse_choice_group`. -/
def parse_choice_group (group : Node) (answers : List (String × String)) : List Question :=
  (iter_choice_items group).filterMap
    (choiceQuestionOfItem (gather_instruction group) answers)

/-!
Claim C1 concerns the shape `_parse_choice_group` gives to boolean (TFNG)
questions.  The group below reproduces, node for node, the fixture of the
repository's own unit test
`tests/test_boolean_questions.py::test_boolean_questions_emit_statement_content`,
which asserts `content == {"statement": "Statement text."}` with no options
key — while the code emits `{"questionText": ..., "options": [...]}`.
-/

/-- A radio-option label node valued `v`, as built by the unit test. -/
def mkOption (v : String) : Node :=
  .mk (some "label") []
    [.child (.mk (some "input") [("type", "radio"), ("name", "q1"), ("value", v)] []),
     .text (" " ++ v)]

/-- The boolean question group of the unit test fixture. -/
def c1Group : Node :=
  .mk (some "div") [("class", "group")]
    [.child (.mk (some "p") []
       [.text "Do the following statements agree with the information in the passage? TRUE/FALSE/NOT GIVEN."]),
     .child (.mk (some "div") [("class", "question-item tfng-item")]
       [.child (.mk (some "p") []
          [.child (.mk (some "strong") [] [.text "1"]), .text " Statement text."]),
        .child (mkOption "TRUE"), .child (mkOption "FALSE"),
        .child (mkOption "NOT GIVEN")])]

/-- The shared instruction text of that group. -/
def c1Instr : String :=
  "Do the following statements agree with the information in the passage? TRUE/FALSE/NOT GIVEN."

/-- C1: evaluating `_parse_choice_group` at the failing input (the repository's
own unit-test fixture).  The produced question has type `true-false-ng` as the
claim states, but its content is `{questionText, options}` — not the
statement-only shape `{"statement": <prompt>}` that the claim (and the
repository's test) require. -/
theorem c1_choice_group_emits_options_shape :
    parse_choice_group c1Group [("q1", "TRUE")] =
      [{ questionNumber := 1, type := .trueFalseNg,
         instruction := c1Instr,
         content := [("questionText", JValue.s "Statement text."),
                     ("options", choiceOptionsJ (build_options ["TRUE", "FALSE", "NOT GIVEN"]))],
         answer := .str "TRUE" }] := by
  rfl

/-!
Embedding of the remaining group-parsing strategies: `_parse_heading_group`,
`_parse_matching_table_group`, `_parse_matching_group`,
`_parse_summary_group`, with their helpers.
-/

/-- Models the Python expression `a or b` for an optional string `a`: `None`
and the empty string are both falsy. -/
def pyOrStr (a : Option String) (b : String) : String :=
  match a with
  | some v => if v = "" then b else v
  | none => b

/-- Models `_clone_options` (a structural copy). -/
def clone_options (options : List ChoiceOption) : List ChoiceOption :=
  options.map (fun o => { label := o.label, text := o.text })

/-- Integer-keyed dict lookup (`heading_targets.get(number)`), last write
wins. -/
def pyDictGetI (l : List (Int × String)) (k : Int) : Option String :=
  (l.filter (fun kv => kv.1 = k)).getLast? |>.map (fun kv => kv.2)

/-- Models `sorted(d)` for an integer-keyed dict: its distinct keys in
ascending order. -/
def sortedUniqueKeys (l : List (Int × String)) : List Int :=
  (dedupFirst (l.map Prod.fst)).insertionSort (fun a b => a ≤ b)

/-- Models `_extract_drag_options`: one option per `div.drag-item` descendant
of the pool, label from the given attribute with `data-option`/`data-heading`
fallbacks, text cleaned of the leading label. -/
def extract_drag_options (pool : Option Node) (labelAttr : String) : List ChoiceOption :=
  match pool with
  | none => []
  | some p =>
    (p.iterAll (some "div") [("class", "drag-item")]).map (fun item =>
      let label := pyOrStr (attrsGet item labelAttr)
        (pyOrStr (attrsGet item "data-option")
          (pyOrStr (attrsGet item "data-heading") ""))
      let text := pyStrip (item.get_text true)
      let cleaned := strip_leading_label text label
      { label := if label = "" then cleaned else label,
        text := if cleaned = "" then text else cleaned })

/-- Match of `Questions?\s+(\d+)(?:\s*[–-]\s*(\d+))?` at the head of a
character list. -/
def questionRangeAt (l : List Char) : Option (Int × Int) :=
  if startsWithL l "Question".data then
    let r0 := l.drop 8
    let r1 := if startsWithL r0 ['s'] then r0.drop 1 else r0
    let ws := r1.takeWhile pyIsSpace
    if ws.length == 0 then none
    else
      let r2 := r1.drop ws.length
      let ds := r2.takeWhile isAsciiDigit
      if ds.isEmpty then none
      else
        let start := Int.ofNat (digitsToNat ds)
        let r3 := r2.drop ds.length
        let r4 := r3.dropWhile pyIsSpace
        match r4 with
        | d :: r5 =>
          if d = '–' || d = '-' then
            let r6 := r5.dropWhile pyIsSpace
            let ds2 := r6.takeWhile isAsciiDigit
            if ds2.isEmpty then some (start, start)
            else some (start, Int.ofNat (digitsToNat ds2))
          else some (start, start)
        | [] => some (start, start)
  else none

/-- Generic first-match search over all suffixes, modelling `re.search`. -/
def anySuffixFind {α : Type} (p : List Char → Option α) : List Char → Option α
  | [] => p []
  | c :: rest =>
    match p (c :: rest) with
    | some v => some v
    | none => anySuffixFind p rest

/-- Models `_extract_question_range`: the `Questions N–M` header of the
group's first `h4`. -/
def extract_question_range (group : Node) : Option (Int × Int) :=
  match group.find_first (some "h4") [] with
  | none => none
  | some header => anySuffixFind questionRangeAt (header.get_text true).data

/-- Models the per-number loop body of `_parse_heading_group`: numbers without
a (truthy) paragraph label are skipped. -/
def headingQuestionOfNumber (instruction : String) (answers : List (String × String))
    (heading_targets : List (Int × String)) (options : List ChoiceOption)
    (number : Int) : Option Question :=
  match pyDictGetI heading_targets number with
  | none => none
  | some label =>
    if label = "" then none
    else
      some { questionNumber := number, type := .headingMatching,
             instruction := instruction,
             content := [("paragraphLabel", JValue.s label),
                         ("options", choiceOptionsJ (clone_options options))],
             answer := .str (answerFor answers number) }

/-- Models `_parse_heading_group`. -/
def parse_heading_group (group : Node) (answers : List (String × String))
    (heading_targets : List (Int × String)) : List Question :=
  let instruction := gather_instruction group
  let options_pool := group.find_first (some "div") [("class", "headings-pool")]
  let options := extract_drag_options options_pool "data-heading"
  let numbers :=
    match extract_question_range group with
    | some (start, stop) =>
      (sortedUniqueKeys heading_targets).filter (fun n => start ≤ n && n ≤ stop)
    | none => sortedUniqueKeys heading_targets
  numbers.filterMap (headingQuestionOfNumber instruction answers heading_targets options)

/-- Models `_determine_matching_table_type`. -/
def determine_matching_table_type (instruction : String) : QuestionType × String :=
  let normalized := pyLower instruction
  if hasSubstr normalized "heading" then (.headingMatching, "paragraphLabel")
  else if hasSubstr normalized "paragraph" then (.paragraphMatching, "statement")
  else if hasSubstr normalized "classify" || hasSubstr normalized "classification" then
    (.classification, "statement")
  else if hasSubstr normalized "feature" || hasSubstr normalized "person" then
    (.featureMatching, "statement")
  else (.classification, "statement")

/-- Row-level fallback options of `_parse_matching_table_group`: input `value`
attributes of the non-first cells. -/
def rowFallbackOptions (restCells : List Node) : List ChoiceOption :=
  restCells.filterMap (fun cell =>
    match cell.find_first (some "input") [] with
    | some inp =>
      match pyDictGet inp.attrs "value" with
      | some v => some { label := v, text := v }
      | none => none
    | none => none)

/-- The row loop of `_parse_matching_table_group`; the option list is carried
as state because the `if not options` fallback mutates it for later rows. -/
def matchingTableLoop (instruction : String) (qtype : QuestionType)
    (statementKey : String) (reuse : Bool) (answers : List (String × String)) :
    List Node → List ChoiceOption → List Question
  | [], _ => []
  | row :: rows, options =>
    match row.iter_children (some "td") [] with
    | [] => matchingTableLoop instruction qtype statementKey reuse answers rows options
    | c0 :: restCells =>
      match c0.find_first (some "strong") [] with
      | none => matchingTableLoop instruction qtype statementKey reuse answers rows options
      | some numberNode =>
        match searchIntL (numberNode.get_text true).data with
        | none => matchingTableLoop instruction qtype statementKey reuse answers rows options
        | some number =>
          let statement := stripLeadingNumber (c0.get_text true)
          let options1 :=
            if options = [] then
              let row_options := rowFallbackOptions restCells
              if row_options ≠ [] then row_options else options
            else options
          let content :=
            [(statementKey, JValue.s statement),
             ("options", choiceOptionsJ (clone_options options1))] ++
            (if reuse then [("canReuse", JValue.b true)] else [])
          { questionNumber := number, type := qtype, instruction := instruction,
            content := content, answer := .str (answerFor answers number),
            canReuse := if reuse then some true else none } ::
            matchingTableLoop instruction qtype statementKey reuse answers rows options1

/-- Models `_parse_matching_table_group`. -/
def parse_matching_table_group (group : Node) (answers : List (String × String)) :
    List Question :=
  let instruction := gather_instruction group
  match group.find_first (some "table") [("class", "matching-table")] with
  | none => []
  | some table =>
    let options :=
      match table.find_first (some "thead") [] with
      | some thead =>
        match thead.find_first (some "tr") [] with
        | some headerRow =>
          ((headerRow.iter_children (some "th") []).drop 1).filterMap (fun cell =>
            let label := pyStrip (cell.get_text true)
            if label ≠ "" then some ({ label := label, text := label } : ChoiceOption)
            else none)
        | none => []
      | none => []
    match table.find_first (some "tbody") [] with
    | none => []
    | some tbody =>
      let ts := determine_matching_table_type instruction
      let reuse := hasSubstr (pyLower instruction) "more than once"
      matchingTableLoop instruction ts.1 ts.2 reuse answers
        (tbody.iter_children (some "tr") []) options

/-- Models Python `int(s)` on a string: strip whitespace, optional sign,
decimal digits; everything else raises `ValueError`. -/
def pyInt (s : String) : Except String Int :=
  let t := pyStripL s.data
  match t with
  | '-' :: ds =>
    if !ds.isEmpty && ds.all isAsciiDigit then .ok (-(Int.ofNat (digitsToNat ds)))
    else .error "invalid literal for int"
  | '+' :: ds =>
    if !ds.isEmpty && ds.all isAsciiDigit then .ok (Int.ofNat (digitsToNat ds))
    else .error "invalid literal for int"
  | ds =>
    if !ds.isEmpty && ds.all isAsciiDigit then .ok (Int.ofNat (digitsToNat ds))
    else .error "invalid literal for int"

/-- The item loop of `_parse_matching_group`; `int(...)` on the `strong` text
can raise, so the loop is fallible. -/
def matchingGroupLoop (instruction : String) (reuse : Bool)
    (options : List ChoiceOption) (answers : List (String × String)) :
    List Node → Except String (List Question)
  | [] => .ok []
  | item :: items =>
    match item.find_first (some "strong") [] with
    | none => matchingGroupLoop instruction reuse options answers items
    | some numberNode => do
      let number ← pyInt (numberNode.get_text true)
      let statement := stripLeadingNumber
        (match item.find_first (some "p") [] with
         | some st => st.get_text true
         | none => "")
      let content :=
        [("statement", JValue.s statement),
         ("options", choiceOptionsJ (clone_options options))] ++
        (if reuse then [("canReuse", JValue.b true)] else [])
      let rest ← matchingGroupLoop instruction reuse options answers items
      .ok ({ questionNumber := number, type := .featureMatching,
             instruction := instruction, content := content,
             answer := .str (answerFor answers number),
             canReuse := if reuse then some true else none } :: rest)

/-- Models `_parse_matching_group`. -/
def parse_matching_group (group : Node) (answers : List (String × String)) :
    Except String (List Question) :=
  let instruction := gather_instruction group
  let reuse := hasSubstr (pyLower instruction) "may use any letter"
  let options_block := group.find_first (some "div") [("class", "options-pool")]
  let options := extract_drag_options options_block "data-option"
  matchingGroupLoop instruction reuse options answers
    (group.iter_children (some "div") [("class", "match-question-item")])

/-- Case-insensitive literal prefix match (ASCII), for `re.IGNORECASE`
literals; the pattern is given lowercase. -/
def matchLitCI (l : List Char) (lit : String) : Bool :=
  (l.take lit.data.length).map pyCharLower = lit.data

/-- Character class `[A-Z\s/]` under `re.IGNORECASE`. -/
def isLimitChar (c : Char) : Bool := isAsciiAlpha c || pyIsSpace c || c = '/'

/-- Non-greedy expansion of the `(?P<limit>[A-Z\s/]+?)` group: the smallest
prefix of class characters followed by whitespace and one of the two closing
literals.  Once the prefix leaves the class no longer expansion can match. -/
def limitSearch (rest : List Char) : Nat → Nat → Option Nat
  | _, 0 => none
  | k, remaining + 1 =>
    let limit := rest.take k
    if limit.length == k && limit.all isLimitChar then
      let after := rest.drop k
      let ws := after.takeWhile pyIsSpace
      if decide (ws.length ≥ 1) &&
          (matchLitCI (after.drop ws.length) "from the passage" ||
           matchLitCI (after.drop ws.length) "for each answer") then
        some k
      else limitSearch rest (k + 1) remaining
    else none

/-- Backtracking over the greedy `\s+` run between `Choose` and the limit
group: longest whitespace first, then shorter runs. -/
def limitTryWs (r1 : List Char) : Nat → Option String
  | 0 => none
  | w + 1 =>
    let r2 := r1.drop (w + 1)
    match limitSearch r2 1 r2.length with
    | some k => some (pyStrip (String.mk (r2.take k)))
    | none => limitTryWs r1 w

/-- Match of the `_extract_word_limit` pattern at the head of a character
list, returning the stripped `limit` group. -/
def wordLimitAt (l : List Char) : Option String :=
  if matchLitCI l "choose" then
    let r1 := l.drop 6
    limitTryWs r1 (r1.takeWhile pyIsSpace).length
  else none

/-- Models `str.splitlines()` for newline-separated text. -/
def splitLines (l : List Char) : List (List Char) :=
  (l.foldr (fun c acc =>
    if c = '\n' then [] :: acc
    else
      match acc with
      | [] => [[c]]
      | w :: ws => (c :: w) :: ws) [])

/-- First `some` value of a function over a list. -/
def firstSomeList {α β : Type} (f : α → Option β) : List α → Option β
  | [] => none
  | x :: xs =>
    match f x with
    | some v => some v
    | none => firstSomeList f xs

/-- Models `_extract_word_limit`: the first line of the instruction whose text
matches `Choose <LIMIT> from the passage|for each answer`. -/
def extract_word_limit (instruction : String) : Option String :=
  firstSomeList (fun line => anySuffixFind wordLimitAt line) (splitLines instruction.data)

/-- Integer-keyed dict insertion with overwrite-in-place semantics, as used
for the placeholder dict of `_render_paragraph_with_placeholders`. -/
def dictInsertI (l : List (Int × String)) (k : Int) (v : String) : List (Int × String) :=
  if l.any (fun kv => kv.1 == k) then
    l.map (fun kv => if kv.1 == k then (kv.1, v) else kv)
  else l ++ [(k, v)]

/-- The buffer/placeholder loop of `_render_paragraph_with_placeholders`:
`strong` children become `[[BLANK-n]]` tokens (their text must parse as an
int, else `ValueError`), `input` children are dropped, other children
contribute their unstripped text. -/
def renderLoop : List NItem → List Char → List (Int × String) →
    Except String (List Char × List (Int × String))
  | [], buffer, ph => .ok (buffer, ph)
  | .text s :: rest, buffer, ph => renderLoop rest (buffer ++ s.data) ph
  | .child item :: rest, buffer, ph =>
    if item.tag == some "strong" then do
      let number ← pyInt (item.get_text true)
      let placeholder := "[[BLANK-" ++ toString number ++ "]]"
      renderLoop rest (buffer ++ placeholder.data) (dictInsertI ph number placeholder)
    else if item.tag == some "input" then renderLoop rest buffer ph
    else renderLoop rest (buffer ++ (item.get_text false).data) ph

/-- Models `_render_paragraph_with_placeholders` (the final
`re.sub(r"\s+", " ", ...)` followed by `.strip()` is whitespace collapsing). -/
def render_paragraph_with_placeholders (paragraph : Node) :
    Except String (String × List (Int × String)) := do
  let bp ← renderLoop paragraph.contents [] []
  .ok (collapseWs (pyUnescape (String.mk bp.1)), bp.2)

/-- Models `str.replace` (all non-overlapping occurrences, left to right);
fueled by the input length. -/
def replaceAllGo (pat rep : List Char) : Nat → List Char → List Char
  | 0, l => l
  | _ + 1, [] => []
  | fuel + 1, c :: rest =>
    if startsWithL (c :: rest) pat && !pat.isEmpty then
      rep ++ replaceAllGo pat rep fuel ((c :: rest).drop pat.length)
    else c :: replaceAllGo pat rep fuel rest

/-- Models `segment.replace(pat, rep)`. -/
def replaceAll (l pat rep : List Char) : List Char := replaceAllGo pat rep l.length l

/-- Models `re.sub(r"\[\[BLANK-\d+\]\]", "", segment)`. -/
def removeBlankTokensGo : Nat → List Char → List Char
  | 0, l => l
  | _ + 1, [] => []
  | fuel + 1, c :: rest =>
    if startsWithL (c :: rest) "[[BLANK-".data then
      let after := (c :: rest).drop 8
      let ds := after.takeWhile isAsciiDigit
      if !ds.isEmpty && startsWithL (after.drop ds.length) "]]".data then
        removeBlankTokensGo fuel (after.drop (ds.length + 2))
      else c :: removeBlankTokensGo fuel rest
    else c :: removeBlankTokensGo fuel rest

/-- Entry point for the blank-token removal. -/
def removeBlankTokens (l : List Char) : List Char := removeBlankTokensGo l.length l

/-- Right strip of whitespace. -/
def rstripWs (l : List Char) : List Char := (l.reverse.dropWhile pyIsSpace).reverse

/-- Models `_clean_summary_segment`. -/
def clean_summary_segment (segment token : String) : String :=
  let marker := "<<CURRENT_BLANK>>".data
  let s1 := replaceAll segment.data token.data marker
  let s2 := removeBlankTokens s1
  let s3 := replaceAll s2 marker "_____".data
  let s4 := pyStripL s3
  let s5 := if "_____".data.isSuffixOf s4 then rstripWs (s4.take (s4.length - 5)) else s4
  let s6 := if [','].isSuffixOf s5 then rstripWs (s5.take (s5.length - 1)) else s5
  let s7 := s6.dropWhile pyIsSpace
  let s8 := if startsWithL s7 ['.'] then s7.dropWhile (fun c => c = '.' || c = ' ') else s7
  let s9 :=
    match s8 with
    | c :: _ =>
      if isAsciiLower c then
        if s8.any isAsciiUpper then s8.dropWhile (fun d => !isAsciiUpper d) else s8
      else s8
    | [] => s8
  String.mk s9

/-- First index of a substring, modelling `str.index` (which raises when the
substring is absent). -/
def indexOfL : List Char → List Char → Option Nat
  | l, pat =>
    if startsWithL l pat then some 0
    else
      match l with
      | [] => none
      | _ :: rest => (indexOfL rest pat).map (· + 1)

/-- The per-placeholder segment loop of `_parse_summary_group`, carrying the
`last_cut` position. -/
def summaryLoop (text : List Char) (wordLimit : Option String)
    (options : List ChoiceOption) (reuse : Bool) (instruction : String)
    (answers : List (String × String)) :
    List (Nat × Int × String) → Nat → List Question
  | [], _ => []
  | (position, number, token) :: restOrdered, lastCut =>
    let nextStart :=
      match restOrdered with
      | (p2, _, _) :: _ => p2
      | [] => text.length
    let segment := (text.take nextStart).drop lastCut
    let segment2 := clean_summary_segment (String.mk segment) token
    let content :=
      [("sentence", JValue.s (pyStrip segment2))] ++
      (match wordLimit with
       | some wl => if wl ≠ "" then [("wordLimit", JValue.s wl)] else []
       | none => []) ++
      (if options ≠ [] then [("options", choiceOptionsJ (clone_options options))] else []) ++
      (if reuse then [("canReuse", JValue.b true)] else [])
    { questionNumber := number, type := .summaryCompletion,
      instruction := instruction, content := content,
      answer := .str (answerFor answers number) } ::
      summaryLoop text wordLimit options reuse instruction answers restOrdered
        (position + token.data.length)

/-- One paragraph of `_parse_summary_group`: render, locate every placeholder
(`text.index` raises when a token is missing), sort by position, cut
segments. -/
def summaryParagraph (wordLimit : Option String) (options : List ChoiceOption)
    (reuse : Bool) (instruction : String) (answers : List (String × String))
    (paragraph : Node) : Except String (List Question) := do
  let tp ← render_paragraph_with_placeholders paragraph
  let entries ← tp.2.mapM (fun kv =>
    match indexOfL tp.1.data kv.2.data with
    | some pos => Except.ok (pos, kv.1, kv.2)
    | none => Except.error "substring not found")
  let ordered := entries.insertionSort (fun a b => a.1 ≤ b.1)
  .ok (summaryLoop tp.1.data wordLimit options reuse instruction answers ordered 0)

/-- Models `_parse_summary_group`. -/
def parse_summary_group (group : Node) (answers : List (String × String)) :
    Except String (List Question) :=
  let instruction := gather_instruction group
  let word_limit := extract_word_limit instruction
  match group.find_first (some "div") [("class", "summary-completion")] with
  | none => .ok []
  | some summaryBlock =>
    let paragraphs := summaryBlock.iter_children (some "p") []
    let options_block := group.find_first (some "div") [("class", "options-pool")]
    let options := extract_drag_options options_block "data-option"
    let reuse := hasSubstr (pyLower instruction) "more than once"
    (paragraphs.mapM
      (summaryParagraph word_limit options reuse instruction answers)).map List.flatten

/-- Answer attachment in the choice strategy. -/
theorem choice_answer_attached (instruction : String) (answers : List (String × String))
    (item : Node) (q : Question) (h : choiceQuestionOfItem instruction answers item = some q) :
    q.answer = .str (answerFor answers q.questionNumber) := by
  unfold choiceQuestionOfItem at h
  cases hn : extract_question_number item with
  | none => rw [hn] at h; exact Option.noConfusion h
  | some number =>
    rw [hn] at h
    simp only [Option.some.injEq] at h
    subst h
    rfl

/-- Answer attachment in the heading strategy. -/
theorem heading_answer_attached (instruction : String) (answers : List (String × String))
    (targets : List (Int × String)) (options : List ChoiceOption) (number : Int)
    (q : Question)
    (h : headingQuestionOfNumber instruction answers targets options number = some q) :
    q.answer = .str (answerFor answers q.questionNumber) := by
  unfold headingQuestionOfNumber at h
  split at h
  · exact Option.noConfusion h
  · split at h
    · exact Option.noConfusion h
    · injection h with h2
      subst h2
      rfl

/-- Answer attachment in the matching-table strategy. -/
theorem table_answer_attached (instruction : String) (qtype : QuestionType)
    (statementKey : String) (reuse : Bool) (answers : List (String × String))
    (rows : List Node) (options : List ChoiceOption) (q : Question)
    (h : q ∈ matchingTableLoop instruction qtype statementKey reuse answers rows options) :
    q.answer = .str (answerFor answers q.questionNumber) := by
  induction rows generalizing options with
  | nil => simp [matchingTableLoop] at h
  | cons row rows ih =>
    rw [matchingTableLoop] at h
    split at h
    · exact ih options h
    · split at h
      · exact ih options h
      · split at h
        · exact ih options h
        · rcases List.mem_cons.mp h with h | h
          · subst h; rfl
          · exact ih _ h

/-- Answer attachment in the free-form matching strategy. -/
theorem matching_answer_attached (instruction : String) (reuse : Bool)
    (options : List ChoiceOption) (answers : List (String × String))
    (items : List Node) (qs : List Question) (q : Question)
    (h : matchingGroupLoop instruction reuse options answers items = .ok qs)
    (hq : q ∈ qs) :
    q.answer = .str (answerFor answers q.questionNumber) := by
  induction items generalizing qs with
  | nil =>
    rw [matchingGroupLoop] at h
    cases h
    simp at hq
  | cons item items ih =>
    rw [matchingGroupLoop] at h
    cases hs : item.find_first (some "strong") [] with
    | none =>
      rw [hs] at h
      exact ih qs h hq
    | some numberNode =>
      rw [hs] at h
      simp only [bind, Except.bind] at h
      cases hn : pyInt (numberNode.get_text true) with
      | error e => rw [hn] at h; exact Except.noConfusion h
      | ok number =>
        rw [hn] at h
        cases hrest : matchingGroupLoop instruction reuse options answers items with
        | error e => rw [hrest] at h; exact Except.noConfusion h
        | ok rest =>
          rw [hrest] at h
          cases h
          rcases List.mem_cons.mp hq with h | h
          · subst h; rfl
          · exact ih rest hrest h

/-- Answer attachment in the summary segment loop. -/
theorem summary_loop_answer_attached (text : List Char) (wordLimit : Option String)
    (options : List ChoiceOption) (reuse : Bool) (instruction : String)
    (answers : List (String × String)) (ordered : List (Nat × Int × String))
    (lastCut : Nat) (q : Question)
    (h : q ∈ summaryLoop text wordLimit options reuse instruction answers ordered lastCut) :
    q.answer = .str (answerFor answers q.questionNumber) := by
  induction ordered generalizing lastCut with
  | nil => simp [summaryLoop] at h
  | cons entry rest ih =>
    obtain ⟨position, number, token⟩ := entry
    simp only [summaryLoop] at h
    rcases List.mem_cons.mp h with h | h
    · subst h; rfl
    · exact ih _ h

/-- Membership through a successful `mapM` over `Except`: every output comes
from some input. -/
theorem mapM_except_mem {α β : Type} (f : α → Except String β) (l : List α)
    (ys : List β) (h : l.mapM f = .ok ys) (y : β) (hy : y ∈ ys) :
    ∃ x ∈ l, f x = .ok y := by
  induction l generalizing ys with
  | nil =>
    rw [List.mapM_nil] at h
    cases h
    simp at hy
  | cons x xs ih =>
    rw [List.mapM_cons] at h
    simp only [bind, Except.bind, pure, Except.pure] at h
    cases hx : f x with
    | error e => rw [hx] at h; exact Except.noConfusion h
    | ok b =>
      rw [hx] at h
      cases hrest : xs.mapM f with
      | error e => rw [hrest] at h; exact Except.noConfusion h
      | ok bs =>
        rw [hrest] at h
        cases h
        rcases List.mem_cons.mp hy with hEq | hMem
        · exact ⟨x, by simp, by rw [hx, hEq]⟩
        · rcases ih bs hrest hMem with ⟨x2, hx2, hfx2⟩
          exact ⟨x2, by simp [hx2], hfx2⟩

/-- Answer attachment in one summary paragraph. -/
theorem summary_paragraph_answer_attached (wordLimit : Option String)
    (options : List ChoiceOption) (reuse : Bool) (instruction : String)
    (answers : List (String × String)) (paragraph : Node) (qs : List Question)
    (q : Question)
    (h : summaryParagraph wordLimit options reuse instruction answers paragraph = .ok qs)
    (hq : q ∈ qs) :
    q.answer = .str (answerFor answers q.questionNumber) := by
  unfold summaryParagraph at h
  simp only [bind, Except.bind] at h
  split at h
  · exact Except.noConfusion h
  · split at h
    · exact Except.noConfusion h
    · cases h
      exact summary_loop_answer_attached _ wordLimit options reuse instruction
        answers _ 0 q hq

/-- Answer attachment in the summary strategy. -/
theorem summary_answer_attached (group : Node) (answers : List (String × String))
    (qs : List Question) (q : Question)
    (h : parse_summary_group group answers = .ok qs) (hq : q ∈ qs) :
    q.answer = .str (answerFor answers q.questionNumber) := by
  unfold parse_summary_group at h
  cases hb : group.find_first (some "div") [("class", "summary-completion")] with
  | none =>
    rw [hb] at h
    cases h
    simp at hq
  | some summaryBlock =>
    rw [hb] at h
    simp only [Except.map] at h
    split at h
    · exact Except.noConfusion h
    · rename_i qss hm
      cases h.symm
      rcases List.mem_flatten.mp hq with ⟨qs1, hqs1, hq1⟩
      rcases mapM_except_mem _ _ _ hm qs1 hqs1 with ⟨paragraph, _, hpar⟩
      exact summary_paragraph_answer_attached _ _ _ _ _ _ _ _ hpar hq1

/-- C9: every question produced by any of the five group-parsing strategies
carries the answer `answers.get(f"q{number}") or ""`: the mapping's value when
the key is present with a non-empty (truthy) value, and the empty string when
the key is absent — with no error raised for a missing key. -/
theorem c9_answer_lookup_with_silent_default (group : Node)
    (answers : List (String × String)) (targets : List (Int × String)) (q : Question)
    (hsrc : q ∈ parse_choice_group group answers ∨
      q ∈ parse_heading_group group answers targets ∨
      q ∈ parse_matching_table_group group answers ∨
      (∃ qs, parse_matching_group group answers = .ok qs ∧ q ∈ qs) ∨
      (∃ qs, parse_summary_group group answers = .ok qs ∧ q ∈ qs)) :
    (∀ v, pyDictGet answers ("q" ++ toString q.questionNumber) = some v → v ≠ "" →
      q.answer = .str v) ∧
    (pyDictGet answers ("q" ++ toString q.questionNumber) = none →
      q.answer = .str "") := by
  have ha : q.answer = .str (answerFor answers q.questionNumber) := by
    rcases hsrc with h | h | h | ⟨qs, hqs, hq⟩ | ⟨qs, hqs, hq⟩
    · rcases List.mem_filterMap.mp h with ⟨item, _, hsome⟩
      exact choice_answer_attached _ answers item q hsome
    · rcases List.mem_filterMap.mp h with ⟨number, _, hsome⟩
      exact heading_answer_attached _ answers targets _ number q hsome
    · unfold parse_matching_table_group at h
      split at h
      · simp at h
      · repeat' split at h
        all_goals
          first
          | exact table_answer_attached _ _ _ _ answers _ _ q h
          | simp at h
    · exact matching_answer_attached _ _ _ answers _ qs q hqs hq
    · exact summary_answer_attached group answers qs q hqs hq
  refine ⟨?_, ?_⟩
  · intro v hv hne
    rw [ha]
    unfold answerFor pyGetOr
    rw [hv]
    simp [hne]
  · intro hnone
    rw [ha]
    unfold answerFor pyGetOr
    rw [hnone]

/-- The concrete question parsed from the boolean fixture group, used as the
C9 witness. -/
def c9Q : Question :=
  { questionNumber := 1, type := .trueFalseNg, instruction := c1Instr,
    content := [("questionText", JValue.s "Statement text."),
                ("options", choiceOptionsJ (build_options ["TRUE", "FALSE", "NOT GIVEN"]))],
    answer := .str "TRUE" }

/-- C9 witness: the fixture question receives the present truthy answer. -/
theorem c9_answer_lookup_witness : c9Q.answer = AnswerValue.str "TRUE" :=
  (c9_answer_lookup_with_silent_default c1Group [("q1", "TRUE")] [] c9Q
    (Or.inl (by
      rw [show parse_choice_group c1Group [("q1", "TRUE")] = [c9Q] from rfl]
      exact List.mem_singleton.mpr rfl))).1
    "TRUE" rfl (by decide)

/-!
Answer normalization (`develop/html_to_json/answer_parser.py`):
`_normalize_single_answer` / `_normalize_answer`, and claim C7 (idempotence).
-/

/-- Char equality from code-point equality. -/
theorem charEqOfToNat (c d : Char) (h : c.toNat = d.toNat) : c = d := by
  apply Char.eq_of_val_eq
  unfold Char.toNat at h
  exact UInt32.toNat.inj h

/-- Code point of `Char.ofNat` below the surrogate range. -/
theorem charOfNatToNat (n : Nat) (h : n < 55296) : (Char.ofNat n).toNat = n := by
  unfold Char.ofNat
  split
  · rfl
  · rename_i hv
    exact absurd (Or.inl h) hv

theorem isAsciiLower_iff (c : Char) : isAsciiLower c = true ↔ 97 ≤ c.toNat ∧ c.toNat ≤ 122 := by
  simp [isAsciiLower]

theorem isAsciiUpper_iff (c : Char) : isAsciiUpper c = true ↔ 65 ≤ c.toNat ∧ c.toNat ≤ 90 := by
  simp [isAsciiUpper]

theorem toNat_pyCharUpper (c : Char) :
    (pyCharUpper c).toNat = if isAsciiLower c then c.toNat - 32 else c.toNat := by
  unfold pyCharUpper
  split
  · rename_i h
    have hb := (isAsciiLower_iff c).mp h
    exact charOfNatToNat (c.toNat - 32) (by omega)
  · rfl

theorem toNat_pyCharLower (c : Char) :
    (pyCharLower c).toNat = if isAsciiUpper c then c.toNat + 32 else c.toNat := by
  unfold pyCharLower
  split
  · rename_i h
    have hb := (isAsciiUpper_iff c).mp h
    exact charOfNatToNat (c.toNat + 32) (by omega)
  · rfl

theorem pyCharUpper_fix (c : Char) (h : isAsciiLower c = false) : pyCharUpper c = c := by
  unfold pyCharUpper
  rw [h]
  rfl

theorem pyCharLower_fix (c : Char) (h : isAsciiUpper c = false) : pyCharLower c = c := by
  unfold pyCharLower
  rw [h]
  rfl

theorem pyCharUpper_idem (c : Char) : pyCharUpper (pyCharUpper c) = pyCharUpper c := by
  by_cases h : isAsciiLower c = true
  · apply pyCharUpper_fix
    have hb := (isAsciiLower_iff c).mp h
    have ht : (pyCharUpper c).toNat = c.toNat - 32 := by rw [toNat_pyCharUpper, if_pos h]
    rw [Bool.eq_false_iff]
    intro hcon
    have := (isAsciiLower_iff (pyCharUpper c)).mp hcon
    omega
  · have hfix := pyCharUpper_fix c (Bool.eq_false_iff.mpr h)
    rw [hfix]
    exact hfix

theorem pyCharLower_idem (c : Char) : pyCharLower (pyCharLower c) = pyCharLower c := by
  by_cases h : isAsciiUpper c = true
  · apply pyCharLower_fix
    have hb := (isAsciiUpper_iff c).mp h
    have ht : (pyCharLower c).toNat = c.toNat + 32 := by rw [toNat_pyCharLower, if_pos h]
    rw [Bool.eq_false_iff]
    intro hcon
    have := (isAsciiUpper_iff (pyCharLower c)).mp hcon
    omega
  · have hfix := pyCharLower_fix c (Bool.eq_false_iff.mpr h)
    rw [hfix]
    exact hfix

theorem pyCharUpper_pyCharLower (c : Char) :
    pyCharUpper (pyCharLower c) = pyCharUpper c := by
  by_cases h : isAsciiUpper c = true
  · have hb := (isAsciiUpper_iff c).mp h
    have ht : (pyCharLower c).toNat = c.toNat + 32 := by rw [toNat_pyCharLower, if_pos h]
    have hlow : isAsciiLower (pyCharLower c) = true := by
      rw [isAsciiLower_iff]
      omega
    have hnotlow : isAsciiLower c = false := by
      rw [Bool.eq_false_iff]
      intro hcon
      have := (isAsciiLower_iff c).mp hcon
      omega
    rw [pyCharUpper_fix c hnotlow]
    unfold pyCharUpper
    rw [hlow]
    simp only [if_true]
    apply charEqOfToNat
    rw [charOfNatToNat ((pyCharLower c).toNat - 32) (by omega)]
    omega
  · rw [pyCharLower_fix c (Bool.eq_false_iff.mpr h)]

theorem pyIsSpace_pyCharUpper (c : Char) : pyIsSpace (pyCharUpper c) = pyIsSpace c := by
  by_cases h : isAsciiLower c = true
  · have hb := (isAsciiLower_iff c).mp h
    have ht : (pyCharUpper c).toNat = c.toNat - 32 := by rw [toNat_pyCharUpper, if_pos h]
    have h1 : pyIsSpace (pyCharUpper c) = false := by simp [pyIsSpace]; omega
    have h2 : pyIsSpace c = false := by simp [pyIsSpace]; omega
    rw [h1, h2]
  · rw [pyCharUpper_fix c (Bool.eq_false_iff.mpr h)]

theorem pyIsSpace_pyCharLower (c : Char) : pyIsSpace (pyCharLower c) = pyIsSpace c := by
  by_cases h : isAsciiUpper c = true
  · have hb := (isAsciiUpper_iff c).mp h
    have ht : (pyCharLower c).toNat = c.toNat + 32 := by rw [toNat_pyCharLower, if_pos h]
    have h1 : pyIsSpace (pyCharLower c) = false := by simp [pyIsSpace]; omega
    have h2 : pyIsSpace c = false := by simp [pyIsSpace]; omega
    rw [h1, h2]
  · rw [pyCharLower_fix c (Bool.eq_false_iff.mpr h)]

theorem isAsciiAlpha_pyCharLower (c : Char) :
    isAsciiAlpha (pyCharLower c) = isAsciiAlpha c := by
  by_cases h : isAsciiUpper c = true
  · have hb := (isAsciiUpper_iff c).mp h
    have ht : (pyCharLower c).toNat = c.toNat + 32 := by rw [toNat_pyCharLower, if_pos h]
    have h1 : isAsciiAlpha (pyCharLower c) = true := by
      simp [isAsciiAlpha, isAsciiLower, isAsciiUpper]
      omega
    have h2 : isAsciiAlpha c = true := by
      simp [isAsciiAlpha, isAsciiLower, isAsciiUpper]
      omega
    rw [h1, h2]
  · rw [pyCharLower_fix c (Bool.eq_false_iff.mpr h)]

theorem isAsciiUpper_pyCharUpper_of_alpha (c : Char) (h : isAsciiAlpha c = true) :
    isAsciiUpper (pyCharUpper c) = true := by
  by_cases hl : isAsciiLower c = true
  · have hb := (isAsciiLower_iff c).mp hl
    have ht : (pyCharUpper c).toNat = c.toNat - 32 := by rw [toNat_pyCharUpper, if_pos hl]
    rw [isAsciiUpper_iff]
    omega
  · have hfix := pyCharUpper_fix c (Bool.eq_false_iff.mpr hl)
    rw [hfix]
    simp [isAsciiAlpha] at h
    rcases h with h | h
    · exact h
    · rw [Bool.not_eq_true] at hl
      simp [isAsciiLower] at hl
      simp [isAsciiLower] at h
      omega

/-- pyStrip as a left-drop followed by Mathlib's right-drop. -/
theorem pyStripL_eq_rdrop (l : List Char) :
    pyStripL l = List.rdropWhile pyIsSpace (l.dropWhile pyIsSpace) := rfl

/-- Stripping is idempotent at the character-list level. -/
theorem pyStripL_idem (l : List Char) : pyStripL (pyStripL l) = pyStripL l := by
  rw [pyStripL_eq_rdrop, pyStripL_eq_rdrop]
  set A := l.dropWhile pyIsSpace with hA
  have hAdrop : A.dropWhile pyIsSpace = A := by
    rw [hA]
    exact List.dropWhile_idempotent pyIsSpace l
  have hC : (List.rdropWhile pyIsSpace A).dropWhile pyIsSpace
      = List.rdropWhile pyIsSpace A := by
    cases hR : List.rdropWhile pyIsSpace A with
    | nil => rfl
    | cons a r =>
      have hpre : List.rdropWhile pyIsSpace A <+: A := List.rdropWhile_prefix pyIsSpace A
      obtain ⟨t, ht⟩ := hpre
      rw [hR] at ht
      have hAform : A = a :: (r ++ t) := by rw [← ht]; rfl
      have ha : pyIsSpace a = false := by
        cases hb : pyIsSpace a with
        | false => rfl
        | true =>
          exfalso
          have hd : A.dropWhile pyIsSpace = (r ++ t).dropWhile pyIsSpace := by
            rw [hAform, List.dropWhile_cons, hb]
            simp
          rw [hAdrop, hAform] at hd
          have hlen := congrArg List.length hd
          have hsuf : (r ++ t).dropWhile pyIsSpace <:+ (r ++ t) :=
            List.dropWhile_suffix pyIsSpace
          have hle := hsuf.sublist.length_le
          simp at hlen hle
          omega
      simp [List.dropWhile_cons, ha]
  rw [hC, List.rdropWhile_idempotent]

/-- Strip commutes with character maps that preserve whitespace. -/
theorem pyStripL_map_comm (f : Char → Char) (hf : ∀ c, pyIsSpace (f c) = pyIsSpace c)
    (l : List Char) : pyStripL (l.map f) = (pyStripL l).map f := by
  have hcomp : (pyIsSpace ∘ f) = pyIsSpace := funext hf
  unfold pyStripL
  rw [List.dropWhile_map, hcomp, ← List.map_reverse, List.dropWhile_map, hcomp,
    List.map_reverse]

/-- Models `_CORRECT_ANSWER_KEYS`-independent normalization: the uppercase
token set of `_normalize_single_answer`. -/
def upperTokens : List String := ["TRUE", "FALSE", "NOT GIVEN", "YES", "NO"]

/-- The roman-numeral character class `[ivxlcdm]`. -/
def romanChars : List Char := ['i', 'v', 'x', 'l', 'c', 'd', 'm']

/-- Models `re.fullmatch(r"[A-Z]", s, re.IGNORECASE)`: a single ASCII
letter. -/
def isSingleAsciiLetter (s : String) : Bool :=
  match s.data with
  | [c] => isAsciiAlpha c
  | _ => false

/-- Models `re.fullmatch(r"[ivxlcdm]+", s, re.IGNORECASE)`. -/
def isRomanToken (s : String) : Bool :=
  !s.data.isEmpty && s.data.all (fun c => romanChars.contains (pyCharLower c))

/-- Models `_normalize_single_answer`. -/
def normalize_single_answer (value : String) : String :=
  let stripped := pyStrip value
  if stripped = "" then stripped
  else
    let upperCandidate := pyUpper stripped
    if upperCandidate ∈ upperTokens then upperCandidate
    else if isSingleAsciiLetter stripped then pyUpper stripped
    else if isRomanToken stripped then pyLower stripped
    else pyLower stripped

/-- JSON-like answer values of the answer parser: strings, arrays, and
string-keyed objects. -/
inductive JsonLike where
  | str (s : String)
  | list (items : List JsonLike)
  | dict (entries : List (String × JsonLike))

mutual

/-- Models `_normalize_answer`: recursive normalization with structure
preserved. -/
def normalize_answer : JsonLike → JsonLike
  | .str s => .str (normalize_single_answer s)
  | .list items => .list (normalizeAnswerList items)
  | .dict entries => .dict (normalizeAnswerDict entries)

/-- Normalization of an array of answers. -/
def normalizeAnswerList : List JsonLike → List JsonLike
  | [] => []
  | x :: xs => normalize_answer x :: normalizeAnswerList xs

/-- Normalization of an object of answers (values only). -/
def normalizeAnswerDict : List (String × JsonLike) → List (String × JsonLike)
  | [] => []
  | (k, v) :: rest => (k, normalize_answer v) :: normalizeAnswerDict rest

end

/-- Strip is idempotent. -/
theorem pyStrip_idem (s : String) : pyStrip (pyStrip s) = pyStrip s :=
  congrArg String.mk (pyStripL_idem s.data)

/-- Upper after lower equals upper. -/
theorem pyUpper_pyLower (s : String) : pyUpper (pyLower s) = pyUpper s := by
  unfold pyUpper pyLower
  apply congrArg
  rw [List.map_map]
  exact List.map_congr_left (fun a _ => pyCharUpper_pyCharLower a)

/-- Upper is idempotent. -/
theorem pyUpper_idem (s : String) : pyUpper (pyUpper s) = pyUpper s := by
  unfold pyUpper
  apply congrArg
  rw [List.map_map]
  exact List.map_congr_left (fun a _ => pyCharUpper_idem a)

/-- Lower is idempotent. -/
theorem pyLower_idem (s : String) : pyLower (pyLower s) = pyLower s := by
  unfold pyLower
  apply congrArg
  rw [List.map_map]
  exact List.map_congr_left (fun a _ => pyCharLower_idem a)

/-- Single-letter test is invariant under lowering. -/
theorem isSingleAsciiLetter_pyLower (s : String) :
    isSingleAsciiLetter (pyLower s) = isSingleAsciiLetter s := by
  unfold isSingleAsciiLetter pyLower
  cases hd : s.data with
  | nil => rfl
  | cons c rest =>
    cases rest with
    | nil => exact isAsciiAlpha_pyCharLower c
    | cons d rest2 => rfl

/-- Branch computation: empty strip. -/
theorem normalize_single_eq_empty (s : String) (h0 : pyStrip s = "") :
    normalize_single_answer s = "" := by
  unfold normalize_single_answer
  simp [h0]

/-- Branch computation: uppercase token. -/
theorem normalize_single_eq_token (s : String) (h0 : pyStrip s ≠ "")
    (h1 : pyUpper (pyStrip s) ∈ upperTokens) :
    normalize_single_answer s = pyUpper (pyStrip s) := by
  unfold normalize_single_answer
  simp [h0, h1]

/-- Branch computation: single letter. -/
theorem normalize_single_eq_single (s : String) (h0 : pyStrip s ≠ "")
    (h1 : pyUpper (pyStrip s) ∉ upperTokens) (h2 : isSingleAsciiLetter (pyStrip s) = true) :
    normalize_single_answer s = pyUpper (pyStrip s) := by
  unfold normalize_single_answer
  simp [h0, h1, h2]

/-- Branch computation: the roman and default branches both lower. -/
theorem normalize_single_eq_of_lower (s : String) (h0 : pyStrip s ≠ "")
    (h1 : pyUpper (pyStrip s) ∉ upperTokens)
    (h2 : isSingleAsciiLetter (pyStrip s) = false) :
    normalize_single_answer s = pyLower (pyStrip s) := by
  unfold normalize_single_answer
  simp [h0, h1, h2, ite_self]

/-- Normalizing an uppercase token is the identity. -/
theorem norm_token (r : String) (h : r ∈ upperTokens) : normalize_single_answer r = r := by
  fin_cases h <;> decide

/-- Normalizing a single uppercase letter is the identity. -/
theorem norm_single_upper (c : Char) (h : isAsciiUpper c = true) :
    normalize_single_answer (String.mk [c]) = String.mk [c] := by
  have hb := (isAsciiUpper_iff c).mp h
  have hnospace : pyIsSpace c = false := by simp [pyIsSpace]; omega
  have hnotlow : isAsciiLower c = false := by
    rw [Bool.eq_false_iff]
    intro hcon
    have := (isAsciiLower_iff c).mp hcon
    omega
  have hstrip : pyStrip (String.mk [c]) = String.mk [c] := by
    unfold pyStrip pyStripL
    simp [List.dropWhile_cons, hnospace]
  have hne : String.mk [c] ≠ "" := by
    intro hcon
    have := congrArg String.data hcon
    simp at this
  have hupfix : pyUpper (String.mk [c]) = String.mk [c] := by
    unfold pyUpper
    simp [pyCharUpper_fix c hnotlow]
  have htok : pyUpper (pyStrip (String.mk [c])) ∉ upperTokens := by
    rw [hstrip, hupfix]
    intro hcon
    simp only [upperTokens, List.mem_cons, List.not_mem_nil, or_false] at hcon
    rcases hcon with h5 | h5 | h5 | h5 | h5 <;>
      simpa using congrArg String.data h5
  have hsingle : isSingleAsciiLetter (pyStrip (String.mk [c])) = true := by
    rw [hstrip]
    unfold isSingleAsciiLetter
    simp [isAsciiAlpha, h]
  rw [normalize_single_eq_single (String.mk [c]) (by rw [hstrip]; exact hne) htok hsingle,
    hstrip, hupfix]

/-- Normalizing a lowered stripped non-token non-letter string is the
identity. -/
theorem norm_lower_fixed (st : String) (hstrip : pyStrip st = st) (hne : st ≠ "")
    (htok : pyUpper st ∉ upperTokens) (hsingle : isSingleAsciiLetter st = false) :
    normalize_single_answer (pyLower st) = pyLower st := by
  have hdata : pyStripL st.data = st.data := congrArg String.data hstrip
  have hstripr : pyStrip (pyLower st) = pyLower st := by
    unfold pyStrip pyLower
    apply congrArg
    rw [pyStripL_map_comm pyCharLower pyIsSpace_pyCharLower, hdata]
  have hner : pyStrip (pyLower st) ≠ "" := by
    rw [hstripr]
    intro hcon
    apply hne
    have hl : st.data.map pyCharLower = [] := congrArg String.data hcon
    have hempty : st.data = [] := List.map_eq_nil_iff.mp hl
    show st = ""
    calc st = String.mk st.data := rfl
    _ = String.mk [] := by rw [hempty]
    _ = "" := rfl
  have htokr : pyUpper (pyStrip (pyLower st)) ∉ upperTokens := by
    rw [hstripr, pyUpper_pyLower]
    exact htok
  have hsingler : isSingleAsciiLetter (pyStrip (pyLower st)) = false := by
    rw [hstripr, isSingleAsciiLetter_pyLower]
    exact hsingle
  rw [normalize_single_eq_of_lower (pyLower st) hner htokr hsingler, hstripr,
    pyLower_idem]

/-- Idempotence of `_normalize_single_answer`. -/
theorem normalize_single_answer_idem (s : String) :
    normalize_single_answer (normalize_single_answer s) = normalize_single_answer s := by
  by_cases h0 : pyStrip s = ""
  · rw [normalize_single_eq_empty s h0]
    exact normalize_single_eq_empty "" rfl
  · by_cases h1 : pyUpper (pyStrip s) ∈ upperTokens
    · rw [normalize_single_eq_token s h0 h1]
      exact norm_token _ h1
    · by_cases h2 : isSingleAsciiLetter (pyStrip s) = true
      · rw [normalize_single_eq_single s h0 h1 h2]
        obtain ⟨c, hd, halpha⟩ : ∃ c, (pyStrip s).data = [c] ∧ isAsciiAlpha c = true := by
          unfold isSingleAsciiLetter at h2
          cases hcase : (pyStrip s).data with
          | nil => rw [hcase] at h2; exact absurd h2 (by simp)
          | cons c rest =>
            cases rest with
            | nil => rw [hcase] at h2; exact ⟨c, rfl, h2⟩
            | cons d rest2 => rw [hcase] at h2; exact absurd h2 (by simp)
        have hup : pyUpper (pyStrip s) = String.mk [pyCharUpper c] := by
          unfold pyUpper
          rw [hd]
          rfl
        rw [hup]
        exact norm_single_upper (pyCharUpper c) (isAsciiUpper_pyCharUpper_of_alpha c halpha)
      · rw [normalize_single_eq_of_lower s h0 h1 (Bool.eq_false_iff.mpr h2)]
        exact norm_lower_fixed (pyStrip s) (pyStrip_idem s) h0 h1 (Bool.eq_false_iff.mpr h2)

/-- List-level idempotence, assuming it elementwise. -/
theorem normalizeAnswerList_idem_of (items : List JsonLike)
    (h : ∀ y ∈ items, normalize_answer (normalize_answer y) = normalize_answer y) :
    normalizeAnswerList (normalizeAnswerList items) = normalizeAnswerList items := by
  induction items with
  | nil => rfl
  | cons y ys ih =>
    rw [normalizeAnswerList, normalizeAnswerList]
    rw [h y (by simp)]
    rw [ih (fun z hz => h z (by simp [hz]))]

/-- Dict-level idempotence, assuming it on the values. -/
theorem normalizeAnswerDict_idem_of (entries : List (String × JsonLike))
    (h : ∀ kv ∈ entries, normalize_answer (normalize_answer kv.2) = normalize_answer kv.2) :
    normalizeAnswerDict (normalizeAnswerDict entries) = normalizeAnswerDict entries := by
  induction entries with
  | nil => rfl
  | cons kv rest ih =>
    obtain ⟨k, v⟩ := kv
    rw [normalizeAnswerDict, normalizeAnswerDict]
    rw [h (k, v) (by simp)]
    rw [ih (fun z hz => h z (by simp [hz]))]

/-- Strong-induction core of the idempotence proof. -/
theorem normalize_answer_idem_aux :
    ∀ n : Nat, ∀ x : JsonLike, sizeOf x ≤ n →
      normalize_answer (normalize_answer x) = normalize_answer x := by
  intro n
  induction n with
  | zero =>
    intro x hx
    cases x <;> simp at hx
  | succ n ih =>
    intro x hx
    cases x with
    | str s =>
      rw [normalize_answer, normalize_answer, normalize_single_answer_idem]
    | list items =>
      rw [normalize_answer, normalize_answer]
      rw [normalizeAnswerList_idem_of items (fun y hy => ih y (by
        have h1 := List.sizeOf_lt_of_mem hy
        have h2 : sizeOf (JsonLike.list items) = 1 + sizeOf items := by simp
        omega))]
    | dict entries =>
      rw [normalize_answer, normalize_answer]
      rw [normalizeAnswerDict_idem_of entries (fun kv hkv => ih kv.2 (by
        have h1 := List.sizeOf_lt_of_mem hkv
        have h2 : sizeOf (JsonLike.dict entries) = 1 + sizeOf entries := by simp
        have h3 : sizeOf kv.2 < sizeOf kv := by
          obtain ⟨k, v⟩ := kv
          have h4 : sizeOf (k, v) = 1 + sizeOf k + sizeOf v := rfl
          simp only [h4]
          omega
        omega))]

/-- C7: the answer-normalization function is idempotent on every JSON-like
answer shape (string, list, dict, nested recursively):
`normalize(normalize(x)) == normalize(x)`. -/
theorem c7_normalize_answer_idempotent (x : JsonLike) :
    normalize_answer (normalize_answer x) = normalize_answer x :=
  normalize_answer_idem_aux (sizeOf x) x le_rfl

/-!
Answer-key extraction: `_find_js_object`, `_extract_braced_block`,
`_skip_js_string`, `_skip_js_comment`, the `_ObjectReader` recursive-descent
parser and `extract_answer_data` of `answer_parser.py`, plus the ingest-side
`_extract_answer_key` regex of `html_exam_parser.py`.  The curly braces and
quotes scanned by this code are written via `lbrace`/`rbrace`/`squote`.
-/

/-- Identifier class `[a-zA-Z0-9_$]` of the object-header pattern. -/
def headerIdentChar (c : Char) : Bool :=
  isAsciiAlpha c || isAsciiDigit c || c = '_' || c = '$'

/-- Match of `(?:const|let|var)\s+(?P<name>[a-zA-Z0-9_$]+)\s*=\s*\{` at the
head of a character list, returning the captured name and the offset of the
opening brace. -/
def matchHeaderAt (l : List Char) : Option (String × Nat) :=
  let kwLen : Option Nat :=
    if startsWithL l "const".data then some 5
    else if startsWithL l "let".data then some 3
    else if startsWithL l "var".data then some 3
    else none
  match kwLen with
  | none => none
  | some k =>
    let r1 := l.drop k
    let ws := r1.takeWhile pyIsSpace
    if ws.length == 0 then none
    else
      let r2 := r1.drop ws.length
      let name := r2.takeWhile headerIdentChar
      if name.isEmpty then none
      else
        let r3 := r2.drop name.length
        let ws2 := r3.takeWhile pyIsSpace
        match r3.drop ws2.length with
        | '=' :: r5 =>
          let ws3 := r5.takeWhile pyIsSpace
          match r5.drop ws3.length with
          | c :: _ =>
            if c = lbrace then
              some (String.mk name, k + ws.length + name.length + ws2.length + 1 + ws3.length)
            else none
          | [] => none
        | _ => none

/-- Models `str.find(pat, start)`-style searching (absolute index relative to
the given list). -/
def skip_js_string_go : Nat → List Char → Char → Nat → Except String Nat
  | 0, _, _, _ => .error "Unterminated string literal in script block"
  | fuel + 1, text, quote, index =>
    if index < text.length then
      let char := text.getD index ' '
      if char = '\\' then skip_js_string_go fuel text quote (index + 2)
      else if char = quote then .ok (index + 1)
      else skip_js_string_go fuel text quote (index + 1)
    else .error "Unterminated string literal in script block"

/-- Models `_skip_js_string`: index just past the closing quote. -/
def skip_js_string (text : List Char) (startIndex : Nat) : Except String Nat :=
  skip_js_string_go (text.length + 2) text (text.getD startIndex ' ') (startIndex + 1)

/-- Models `_skip_js_comment`. -/
def skip_js_comment (text : List Char) (startIndex : Nat) : Except String Nat :=
  if startsWithL (text.drop startIndex) "//".data then
    match indexOfL (text.drop (startIndex + 2)) ['\n'] with
    | none => .ok text.length
    | some off => .ok (startIndex + 2 + off + 1)
  else if startsWithL (text.drop startIndex) "/*".data then
    match indexOfL (text.drop (startIndex + 2)) "*/".data with
    | none => .error "Unterminated comment in script block"
    | some off => .ok (startIndex + 2 + off + 2)
  else .ok (startIndex + 1)

/-- Models the depth-scanning loop of `_extract_braced_block`; the fuel bounds
the number of loop iterations, each of which advances the index, so the input
length plus a constant always suffices. -/
def extractBracedGo : Nat → List Char → Nat → Nat → Int → Except String String
  | 0, _, _, _, _ => .error "Failed to locate matching close brace for object literal"
  | fuel + 1, text, braceStart, index, depth =>
    if index < text.length then
      let char := text.getD index ' '
      if char = lbrace then extractBracedGo fuel text braceStart (index + 1) (depth + 1)
      else if char = rbrace then
        if depth - 1 = 0 then .ok (String.mk ((text.take (index + 1)).drop braceStart))
        else extractBracedGo fuel text braceStart (index + 1) (depth - 1)
      else if char = '"' || char = squote then
        match skip_js_string text index with
        | .ok index2 => extractBracedGo fuel text braceStart index2 depth
        | .error e => .error e
      else if char = '/' then
        match skip_js_comment text index with
        | .ok index2 => extractBracedGo fuel text braceStart index2 depth
        | .error e => .error e
      else extractBracedGo fuel text braceStart (index + 1) depth
    else .error "Failed to locate matching close brace for object literal"

/-- Models `_extract_braced_block`. -/
def extract_braced_block (text : List Char) (braceStart : Nat) : Except String String :=
  extractBracedGo (text.length + 4) text braceStart braceStart 0

/-- The recognised answer-key names, already lowercase
(`_CORRECT_ANSWER_KEYS`). -/
def correctAnswerKeys : List String := ["correctanswers", "answers", "answerkey", "solutions"]

/-- The finditer loop of `_find_js_object`: scan for header matches; on a
match with a recognised name extract its braced block (a brace-matching
failure propagates as a parse error); otherwise continue after the match. -/
def findJsObjectGo : Nat → List Char → Nat → List String → Except String (Option String)
  | 0, _, _, _ => .ok none
  | fuel + 1, html, i, names =>
    let suffix := html.drop i
    if suffix.isEmpty then .ok none
    else
      match matchHeaderAt suffix with
      | some (name, braceOff) =>
        if names.contains (pyLower name) then
          (extract_braced_block html (i + braceOff)).map some
        else findJsObjectGo fuel html (i + braceOff + 1) names
      | none => findJsObjectGo fuel html (i + 1) names

/-- Models `_find_js_object`. -/
def find_js_object (html : String) (names : List String) : Except String (Option String) :=
  findJsObjectGo (html.data.length + 1) html.data 0 names

/-- Models the `_COMMENT_PATTERN.sub("", text)` preprocessing of
`_ObjectReader.__init__` (the regex is string-literal-agnostic, exactly as in
the source): `//` comments up to the end of line, `/* */` comments with a
closing delimiter. -/
def removeCommentsGo : Nat → List Char → List Char
  | 0, l => l
  | _ + 1, [] => []
  | fuel + 1, c :: rest =>
    if startsWithL (c :: rest) "//".data then
      match indexOfL ((c :: rest).drop 2) ['\n'] with
      | some off => removeCommentsGo fuel ((c :: rest).drop (2 + off))
      | none => []
    else if startsWithL (c :: rest) "/*".data then
      match indexOfL ((c :: rest).drop 2) "*/".data with
      | some off => removeCommentsGo fuel ((c :: rest).drop (2 + off + 2))
      | none => c :: removeCommentsGo fuel rest
    else c :: removeCommentsGo fuel rest

/-- Entry point of the comment removal. -/
def removeComments (l : List Char) : List Char := removeCommentsGo l.length l

/-- Identifier class of `_ObjectReader._parse_identifier`
(`isalnum() or char in ("_", "-")`, ASCII model). -/
def readerIdentChar (c : Char) : Bool :=
  isAsciiAlpha c || isAsciiDigit c || c = '_' || c = '-'

/-- Models `_ObjectReader._parse_identifier`. -/
def readerParseIdent (cs : List Char) : Except String (String × List Char) :=
  let run := cs.takeWhile readerIdentChar
  if run.isEmpty then .error "Expected identifier"
  else .ok (String.mk run, cs.drop run.length)

/-- Models `_ObjectReader._parse_string` after the opening quote was
consumed. -/
def readerParseString : Nat → Char → List Char → List Char →
    Except String (String × List Char)
  | 0, _, _, _ => .error "Unexpected end of input"
  | fuel + 1, quote, cs, acc =>
    match cs with
    | [] => .error "Unexpected end of input"
    | c :: rest =>
      if c = quote then .ok (String.mk acc.reverse, rest)
      else if c = '\\' then
        match rest with
        | [] => .error "Unexpected end of input"
        | d :: rest2 =>
          let decoded :=
            if d = '\\' then '\\'
            else if d = quote then quote
            else if d = 'n' then '\n'
            else if d = 'r' then '\r'
            else if d = 't' then '\t'
            else d
          readerParseString fuel quote rest2 (decoded :: acc)
      else readerParseString fuel quote rest (c :: acc)

/-- String-keyed JSON dict insertion with overwrite-in-place semantics
(`obj[key] = value`). -/
def dictInsertS (l : List (String × JsonLike)) (k : String) (v : JsonLike) :
    List (String × JsonLike) :=
  if l.any (fun kv => kv.1 == k) then
    l.map (fun kv => if kv.1 == k then (kv.1, v) else kv)
  else l ++ [(k, v)]

/-- Models `_ObjectReader._parse_key`: a string or a bare identifier.  At the
end of input the Python `char in "'\""` membership test itself fails, so this
is an error case as well. -/
def readerParseKey (fuel : Nat) (cs : List Char) : Except String (String × List Char) :=
  let cs1 := cs.dropWhile pyIsSpace
  match cs1 with
  | [] => .error "Unexpected end of input"
  | c :: rest =>
    if c = squote || c = '"' then readerParseString fuel c rest []
    else readerParseIdent cs1

mutual

/-- Models `_ObjectReader._parse_value`. -/
def readerParseValue : Nat → List Char → Except String (JsonLike × List Char)
  | 0, _ => .error "Unexpected end of value"
  | fuel + 1, cs =>
    let cs1 := cs.dropWhile pyIsSpace
    match cs1 with
    | [] => .error "Unexpected end of value"
    | c :: rest =>
      if c = squote || c = '"' then
        match readerParseString fuel c rest [] with
        | .ok p => .ok (.str p.1, p.2)
        | .error e => .error e
      else if c = '[' then
        readerArrayLoop fuel rest []
      else if c = lbrace then
        match readerObjectLoop fuel rest [] with
        | .ok p => .ok (.dict p.1, p.2)
        | .error e => .error e
      else
        match readerParseIdent cs1 with
        | .ok p => .ok (.str p.1, p.2)
        | .error e => .error e

/-- Models the element loop of `_ObjectReader._parse_array` (the opening
bracket is already consumed). -/
def readerArrayLoop : Nat → List Char → List JsonLike →
    Except String (JsonLike × List Char)
  | 0, _, _ => .error "Unterminated array literal"
  | fuel + 1, cs, acc =>
    let cs1 := cs.dropWhile pyIsSpace
    match cs1 with
    | [] => .error "Unterminated array literal"
    | c :: rest =>
      if c = ']' then .ok (.list acc.reverse, rest)
      else
        match readerParseValue fuel cs1 with
        | .error e => .error e
        | .ok (v, cs2) =>
          let cs3 := cs2.dropWhile pyIsSpace
          match cs3 with
          | ',' :: rest2 => readerArrayLoop fuel rest2 (v :: acc)
          | ']' :: rest2 => .ok (.list (v :: acc).reverse, rest2)
          | _ => .error "Unexpected character in array literal"

/-- Models the entry loop of `_ObjectReader._parse_object` (the opening brace
is already consumed). -/
def readerObjectLoop : Nat → List Char → List (String × JsonLike) →
    Except String (List (String × JsonLike) × List Char)
  | 0, _, _ => .error "Unterminated object literal"
  | fuel + 1, cs, acc =>
    let cs1 := cs.dropWhile pyIsSpace
    match cs1 with
    | [] => .error "Unterminated object literal"
    | c :: _ =>
      if c = rbrace then .ok (acc, cs1.drop 1)
      else
        match readerParseKey fuel cs1 with
        | .error e => .error e
        | .ok (key, cs2) =>
          let cs3 := cs2.dropWhile pyIsSpace
          match cs3 with
          | ':' :: cs4 =>
            match readerParseValue fuel cs4 with
            | .error e => .error e
            | .ok (v, cs5) =>
              let acc2 := dictInsertS acc key v
              let cs6 := cs5.dropWhile pyIsSpace
              match cs6 with
              | ',' :: cs7 => readerObjectLoop fuel cs7 acc2
              | c2 :: cs7 =>
                if c2 = rbrace then .ok (acc2, cs7)
                else .error "Unexpected character in object literal"
              | [] => .error "Unterminated object literal"
          | _ :: _ => .error "Expected colon after object key"
          | [] => .error "Unexpected end of input"

end

/-- Models `_ObjectReader(text).parse()`: strip comments, expect an object. -/
def readerParse (text : String) : Except String (List (String × JsonLike)) :=
  let cleaned := removeComments text.data
  let cs := cleaned.dropWhile pyIsSpace
  match cs with
  | c :: rest =>
    if c = lbrace then
      match readerObjectLoop (cleaned.length * 4 + 16) rest [] with
      | .ok p => .ok p.1
      | .error e => .error e
    else .error "Expected object literal to start with an opening brace"
  | [] => .error "Expected object literal to start with an opening brace"

/-- The explanation/hint name keywords (`_EXPLANATION_HINT_KEYWORDS`). -/
def explanationKeywords : List String :=
  ["explanation", "explanations", "analysis", "analyses", "解析", "hint", "hints",
   "tips", "solutions"]

/-- The finditer loop of `_find_explanation_objects`: every header match whose
lowered name contains one of the keywords contributes its braced block;
brace-matching failures propagate. -/
def findExplanationObjectsGo : Nat → List Char → Nat →
    Except String (List (String × String))
  | 0, _, _ => .ok []
  | fuel + 1, html, i =>
    let suffix := html.drop i
    if suffix.isEmpty then .ok []
    else
      match matchHeaderAt suffix with
      | some (name, braceOff) =>
        if explanationKeywords.any (fun kw => hasSubstr (pyLower name) kw) then
          match extract_braced_block html (i + braceOff) with
          | .error e => .error e
          | .ok body =>
            match findExplanationObjectsGo fuel html (i + braceOff + 1) with
            | .error e => .error e
            | .ok rest => .ok ((name, body) :: rest)
        else findExplanationObjectsGo fuel html (i + braceOff + 1)
      | none => findExplanationObjectsGo fuel html (i + 1)

/-- Models `_find_explanation_objects`. -/
def find_explanation_objects (html : String) : Except String (List (String × String)) :=
  findExplanationObjectsGo (html.data.length + 1) html.data 0

/-- Last-write-wins lookup in a JSON dict (`value.get(key)`). -/
def dictGetJson (l : List (String × JsonLike)) (k : String) : Option JsonLike :=
  (l.filter (fun kv => kv.1 = k)).getLast? |>.map (fun kv => kv.2)

/-- Models `_flatten_explanation_value`. -/
def flatten_explanation_value : JsonLike → Option String
  | .str s =>
    let t := pyStrip s
    if t = "" then none else some t
  | .list items =>
    let parts := items.filterMap (fun it =>
      match it with
      | .str p =>
        let t := pyStrip p
        if t = "" then none else some t
      | _ => none)
    if parts = [] then none else some (joinNewline parts)
  | .dict entries =>
    let preferred := ["explanation", "analysis", "hint", "tips", "reason"]
    let parts := preferred.filterMap (fun key =>
      match dictGetJson entries key with
      | some (.str raw) =>
        let t := pyStrip raw
        if t = "" then none else some t
      | _ => none)
    let parts2 :=
      if parts = [] then
        entries.filterMap (fun kv =>
          match kv.2 with
          | .str raw =>
            let t := pyStrip raw
            if t = "" then none else some t
          | _ => none)
      else parts
    if parts2 = [] then none else some (joinNewline parts2)

/-- String-valued dict insertion with overwrite-in-place semantics. -/
def dictInsertStr (l : List (String × String)) (k v : String) : List (String × String) :=
  if l.any (fun kv => kv.1 == k) then
    l.map (fun kv => if kv.1 == k then (kv.1, v) else kv)
  else l ++ [(k, v)]

/-- The explanation-collection loop of `extract_answer_data`: blocks that fail
to parse are silently skipped. -/
def buildExplanations (objs : List (String × String)) : List (String × String) :=
  objs.foldl (fun acc nb =>
    match readerParse nb.2 with
    | .error _ => acc
    | .ok parsed =>
      parsed.foldl (fun acc2 kv =>
        match flatten_explanation_value kv.2 with
        | some t => dictInsertStr acc2 kv.1 t
        | none => acc2) acc) []

/-- Container for a single question's processed data (`ExtractedAnswer`). -/
structure ExtractedAnswer where
  answer : JsonLike
  explanation : Option String

/-- Models `extract_answer_data`. -/
def extract_answer_data (html : String) :
    Except String (List (String × ExtractedAnswer)) := do
  let answersBlob ← find_js_object html correctAnswerKeys
  match answersBlob with
  | none => .error "No correctAnswers object found in HTML"
  | some blob =>
    if blob = "" then .error "No correctAnswers object found in HTML"
    else do
      let answers ← readerParse blob
      let normalized := answers.map (fun kv => (kv.1, normalize_answer kv.2))
      let explObjs ← find_explanation_objects html
      let explanations := buildExplanations explObjs
      .ok (normalized.map (fun kv =>
        (kv.1, { answer := kv.2,
                 explanation := pyDictGet explanations kv.1 })))

/-- Match of `const\s+correctAnswers\s*=\s*\{` at the head of a character
list, returning the number of characters consumed including the brace. -/
def correctAnswersHeadAt (l : List Char) : Option Nat :=
  if startsWithL l "const".data then
    let r1 := l.drop 5
    let ws := r1.takeWhile pyIsSpace
    if ws.length == 0 then none
    else
      let r2 := r1.drop ws.length
      if startsWithL r2 "correctAnswers".data then
        let r3 := r2.drop 14
        let ws2 := r3.takeWhile pyIsSpace
        match r3.drop ws2.length with
        | '=' :: r5 =>
          let ws3 := r5.takeWhile pyIsSpace
          match r5.drop ws3.length with
          | c :: _ =>
            if c = lbrace then
              some (5 + ws.length + 14 + ws2.length + 1 + ws3.length + 1)
            else none
          | [] => none
        | _ => none
      else none
  else none

/-- Lazy expansion of the `(?P<body>.*?)` group: smallest length whose suffix
starts with a closing brace followed by optional whitespace and a
semicolon. -/
def lazyBodyGo (l : List Char) : Nat → Nat → Option Nat
  | _, 0 => none
  | k, r + 1 =>
    match l.drop k with
    | c :: rest =>
      if c = rbrace && startsWithL (rest.dropWhile pyIsSpace) [';'] then some k
      else lazyBodyGo l (k + 1) r
    | [] => none

/-- The scan of `re.search(r"const\s+correctAnswers\s*=\s*\{(?P<body>.*?)\}\s*;",
raw_html, re.S)`, returning the `body` group of the leftmost match. -/
def findCABodyGo : Nat → List Char → Option String
  | 0, _ => none
  | fuel + 1, l =>
    match correctAnswersHeadAt l with
    | some hlen =>
      let afterBrace := l.drop hlen
      (match lazyBodyGo afterBrace 0 (afterBrace.length + 1) with
       | some k => some (String.mk (afterBrace.take k))
       | none =>
         match l with
         | [] => none
         | _ :: rest => findCABodyGo fuel rest)
    | none =>
      match l with
      | [] => none
      | _ :: rest => findCABodyGo fuel rest

/-- Models the regex search of `_extract_answer_key` (html_exam_parser.py
line 296). -/
def findCorrectAnswersBody (raw : String) : Option String :=
  findCABodyGo (raw.data.length + 1) raw.data

/-- Models `_extract_answer_key` (html_exam_parser.py lines 295-306),
parameterised over the successful-match branch (lines 299-306: comment
stripping, bare-key quoting and `ast.literal_eval` of the body, whose
faithful behaviour is the Python standard library's).  When the regex finds
no match the function returns an empty dict without raising (lines 297-298) —
for the claims below only this branch is ever reached, so every theorem holds
for an arbitrary `evalBody`. -/
def extract_answer_key_with
    (evalBody : String → Except String (List (String × String)))
    (rawHtml : String) : Except String (List (String × String)) :=
  match findCorrectAnswersBody rawHtml with
  | none => .ok []
  | some body => evalBody body

/-- The concrete input of claim C8:
`const correctAnswers = { q1: 'TRUE', q2: 'Polynesian', q3: ['A','c'] };`. -/
def c8Input : String :=
  "const correctAnswers = \x7b q1: \x27TRUE\x27, q2: \x27Polynesian\x27, q3: [\x27A\x27,\x27c\x27] \x7d;"

/-- C8: on the concrete statement the extractor yields `q1 → "TRUE"`,
`q2 → "polynesian"` and `q3 → ["A", "C"]` (order preserved, no
explanations). -/
theorem c8_concrete_extraction :
    extract_answer_data c8Input =
      .ok [("q1", { answer := .str "TRUE", explanation := none }),
           ("q2", { answer := .str "polynesian", explanation := none }),
           ("q3", { answer := .list [.str "A", .str "C"], explanation := none })] := by
  rfl

/-- A concrete HTML text with no recognisable answer-key object literal. -/
def c3Input : String := "<p>hi</p>"

/-- C3 counterexample: on a text with no recognised object literal,
`extract_answer_data` does raise a parse error, but the ingest pipeline's
`_extract_answer_key` — also named by the claim — returns a silent empty
mapping instead of failing, whatever the unreached literal-eval branch
does. -/
theorem c3_ingest_extractor_returns_empty :
    findCorrectAnswersBody c3Input = none ∧
    extract_answer_key_with (fun _ => .error "unreached") c3Input = .ok [] ∧
    find_js_object c3Input correctAnswerKeys = .ok none ∧
    extract_answer_data c3Input = .error "No correctAnswers object found in HTML" := by
  refine ⟨rfl, rfl, rfl, rfl⟩

/-- C3 (amended): when the source text contains no object literal assigned to
a recognised answer-key name, `extract_answer_data` fails with a parse error;
the ingest-side `_extract_answer_key`, by contrast, silently returns an empty
mapping whenever its own `const correctAnswers` regex finds no match. -/
theorem c3_no_object_literal_behaviour (html : String)
    (evalBody : String → Except String (List (String × String)))
    (h : find_js_object html correctAnswerKeys = .ok none) :
    extract_answer_data html = .error "No correctAnswers object found in HTML" ∧
    (findCorrectAnswersBody html = none →
      extract_answer_key_with evalBody html = .ok []) := by
  constructor
  · unfold extract_answer_data
    rw [h]
    rfl
  · intro h2
    unfold extract_answer_key_with
    rw [h2]

/-- C3 witness: the concrete no-literal input instantiates the amended
theorem. -/
theorem c3_no_object_literal_behaviour_witness :
    extract_answer_data c3Input = .error "No correctAnswers object found in HTML" ∧
    (findCorrectAnswersBody c3Input = none →
      extract_answer_key_with (fun _ => .error "unreached") c3Input = .ok []) :=
  c3_no_object_literal_behaviour c3Input (fun _ => .error "unreached") rfl

/-!
Payload serialization (`exam_to_payload`) and the JSON-loading path
(`load_exam_from_json` of `audit_conversion.py`).  The loader is typed
against the dataclass annotations: a field whose JSON value cannot inhabit
the annotated type is a decode error in this embedding (payloads produced by
`exam_to_payload` always satisfy the annotations).
-/

/-- Models `_serialize_answer`. -/
def serialize_answer : AnswerValue → JValue
  | .str s => .s s
  | .seq items => .arr (items.map JValue.s)

/-- One paragraph entry of the payload: the `label` key is always present,
with `null` for an unlabelled paragraph. -/
def paragraphToJson (p : Paragraph) : JValue :=
  .obj [("label", match p.label with
                  | some l => JValue.s l
                  | none => JValue.null),
        ("content", .s p.content)]

/-- One question entry of the payload: the four optional fields are omitted
entirely when `None`. -/
def questionToJson (q : Question) : JValue :=
  .obj ([("questionNumber", .i q.questionNumber),
         ("type", .s q.type.value),
         ("instruction", .s q.instruction),
         ("content", .obj q.content),
         ("answer", serialize_answer q.answer)] ++
        (match q.explanation with
         | some ex => [("explanation", JValue.s ex)]
         | none => []) ++
        (match q.checkboxGroupName with
         | some n => [("checkboxGroupName", JValue.s n)]
         | none => []) ++
        (match q.occupiesQuestions with
         | some n => [("occupiesQuestions", JValue.i n)]
         | none => []) ++
        (match q.canReuse with
         | some b => [("canReuse", JValue.b b)]
         | none => []))

/-- Models `exam_to_payload` (the `deepcopy` of question content is a
structural copy). -/
def exam_to_payload (e : Exam) : JValue :=
  .obj [("id", .s e.id),
        ("passage", .obj
          [("title", .s e.passage.title),
           ("paragraphs", .arr (e.passage.paragraphs.map paragraphToJson))]),
        ("questions", .arr (e.questions.map questionToJson)),
        ("metadata", .obj
          [("difficulty", .i e.metadata.difficulty.value),
           ("totalQuestions", .i e.metadata.totalQuestions),
           ("questionTypes", .arr (e.metadata.questionTypes.map (fun t => JValue.s t.value)))])]

/-- Entries of an object value (empty for non-objects). -/
def jEntries : JValue → List (String × JValue)
  | .obj l => l
  | _ => []

/-- Last-write-wins lookup in a JSON object. -/
def jObjGet (l : List (String × JValue)) (k : String) : Option JValue :=
  (l.filter (fun kv => kv.1 = k)).getLast? |>.map (fun kv => kv.2)

/-- Models `d.get(k, default)`. -/
def jObjGetD (l : List (String × JValue)) (k : String) (d : JValue) : JValue :=
  (jObjGet l k).getD d

/-- Models `d[k]` (KeyError when absent). -/
def jRequire (l : List (String × JValue)) (k : String) : Except String JValue :=
  match jObjGet l k with
  | some v => .ok v
  | none => .error "missing key"

/-- Requires an object (`.get`/`.items` on a non-dict is an AttributeError). -/
def asObj : JValue → Except String (List (String × JValue))
  | .obj l => .ok l
  | _ => .error "expected a JSON object"

/-- Requires an array. -/
def asArr : JValue → Except String (List JValue)
  | .arr l => .ok l
  | _ => .error "expected a JSON array"

/-- Requires a string. -/
def asStr : JValue → Except String String
  | .s s => .ok s
  | _ => .error "expected a JSON string"

mutual

/-- Models Python `str(...)` on JSON-like values (`True`/`False`/`None`
spellings, `repr`-style rendering of containers; string escaping inside
`repr` is not modelled — the pipeline's answers are flat strings). -/
def pyStr : JValue → String
  | .s s => s
  | .i n => toString n
  | .b true => "True"
  | .b false => "False"
  | .null => "None"
  | .arr items => "[" ++ pyReprItems items ++ "]"
  | .obj entries => "\x7b" ++ pyReprEntries entries ++ "\x7d"

/-- Models Python `repr(...)` on JSON-like values. -/
def pyRepr : JValue → String
  | .s s => "\x27" ++ s ++ "\x27"
  | .i n => toString n
  | .b true => "True"
  | .b false => "False"
  | .null => "None"
  | .arr items => "[" ++ pyReprItems items ++ "]"
  | .obj entries => "\x7b" ++ pyReprEntries entries ++ "\x7d"

/-- Comma-joined reprs of list items. -/
def pyReprItems : List JValue → String
  | [] => ""
  | [x] => pyRepr x
  | x :: xs => pyRepr x ++ ", " ++ pyReprItems xs

/-- Comma-joined reprs of object entries. -/
def pyReprEntries : List (String × JValue) → String
  | [] => ""
  | [kv] => "\x27" ++ kv.1 ++ "\x27: " ++ pyRepr kv.2
  | kv :: rest => "\x27" ++ kv.1 ++ "\x27: " ++ pyRepr kv.2 ++ ", " ++ pyReprEntries rest

end

/-- Models the `_normalize_answer` coercion of `audit_conversion.py`: lists
become lists of `str(...)`, anything else becomes `str(...)`. -/
def normalizeAnswerLoad : JValue → AnswerValue
  | .arr items => .seq (items.map pyStr)
  | v => .str (pyStr v)

/-- Models `int(...)` on a JSON value (`int(True) == 1`). -/
def jToInt : JValue → Except String Int
  | .i n => .ok n
  | .b true => .ok 1
  | .b false => .ok 0
  | .s s => pyInt s
  | _ => .error "cannot convert to int"

/-- Models `DifficultyLevel(value)`: enum lookup by equality, where Python's
`True == 1` makes `True` select P1. -/
def decodeDifficulty : JValue → Except String DifficultyLevel
  | .i n => DifficultyLevel.ofValue n
  | .b true => .ok .p1
  | _ => .error "invalid difficulty value"

/-- Optional string field (`.get`): absent and `null` both load as `None`. -/
def decodeOptStr : Option JValue → Except String (Option String)
  | none => .ok none
  | some .null => .ok none
  | some (.s s) => .ok (some s)
  | some _ => .error "expected a string or null"

/-- Optional int field. -/
def decodeOptInt : Option JValue → Except String (Option Int)
  | none => .ok none
  | some .null => .ok none
  | some (.i n) => .ok (some n)
  | some _ => .error "expected an int or null"

/-- Optional bool field. -/
def decodeOptBool : Option JValue → Except String (Option Bool)
  | none => .ok none
  | some .null => .ok none
  | some (.b b) => .ok (some b)
  | some _ => .error "expected a bool or null"

/-- One paragraph of the loader:
`Paragraph(content=item["content"], label=item.get("label"))`. -/
def decodeParagraph (item : JValue) : Except String Paragraph := do
  let obj ← asObj item
  let contentJ ← jRequire obj "content"
  let content ← asStr contentJ
  let label ←
    match jObjGet obj "label" with
    | none => pure none
    | some .null => pure none
    | some (.s l) => pure (some l)
    | some _ => Except.error "expected a string or null"
  pure { content := content, label := label }

/-- One question of the loader loop. -/
def decodeQuestion (item : JValue) : Except String Question := do
  let obj ← asObj item
  let typeJ ← jRequire obj "type"
  let typeStr ← asStr typeJ
  let qtype ← QuestionType.ofValue typeStr
  let contentJ ← jRequire obj "content"
  let content ← asObj contentJ
  let answerJ ← jRequire obj "answer"
  let numJ ← jRequire obj "questionNumber"
  let num ← jToInt numJ
  let instrJ ← jRequire obj "instruction"
  let instruction ← asStr instrJ
  let explanation ← decodeOptStr (jObjGet obj "explanation")
  let checkbox ← decodeOptStr (jObjGet obj "checkboxGroupName")
  let occupies ← decodeOptInt (jObjGet obj "occupiesQuestions")
  let reuse ← decodeOptBool (jObjGet obj "canReuse")
  pure { questionNumber := num, type := qtype, instruction := instruction,
         content := content, answer := normalizeAnswerLoad answerJ,
         explanation := explanation, checkboxGroupName := checkbox,
         occupiesQuestions := occupies, canReuse := reuse }

/-- Models `_validate_answers_present`: a blank string answer, an empty
answer list or a blank list item raises. -/
def answerMissing (q : Question) : Bool :=
  match q.answer with
  | .str v => pyStrip v == ""
  | .seq items => items.isEmpty || items.any (fun item => pyStrip item == "")

/-- Audit check that every answer is present and non-blank. -/
def validate_answers_present (e : Exam) : Except String Unit :=
  if e.questions.any answerMissing then .error "blank answer" else .ok ()

/-- Models `load_exam_from_json` on an already-parsed JSON value. -/
def load_exam_from_json (data : JValue) : Except String Exam := do
  let dataObj ← asObj data
  let passageData ← asObj (jObjGetD dataObj "passage" (.obj []))
  let paragraphItems ← asArr (jObjGetD passageData "paragraphs" (.arr []))
  let paragraphs ← paragraphItems.mapM decodeParagraph
  let title ← asStr (jObjGetD passageData "title" (.s ""))
  let questionItems ← asArr (jObjGetD dataObj "questions" (.arr []))
  let questions ← questionItems.mapM decodeQuestion
  let metadataData ← asObj (jObjGetD dataObj "metadata" (.obj []))
  let diffJ ← jRequire metadataData "difficulty"
  let difficulty ← decodeDifficulty diffJ
  let totJ ← jRequire metadataData "totalQuestions"
  let totalQuestions ← jToInt totJ
  let qtItems ← asArr (jObjGetD metadataData "questionTypes" (.arr []))
  let questionTypes ← qtItems.mapM (fun it => do QuestionType.ofValue (← asStr it))
  let idJ ← jRequire dataObj "id"
  let theId ← asStr idJ
  let exam : Exam :=
    { id := theId, passage := { title := title, paragraphs := paragraphs },
      questions := questions,
      metadata := { difficulty := difficulty, totalQuestions := totalQuestions,
                    questionTypes := questionTypes } }
  validate_consistency exam
  validate_answers_present exam
  pure exam

/-- Enum round trip: `QuestionType(t.value)` recovers `t`. -/
theorem qtypeOfValue_value (t : QuestionType) :
    QuestionType.ofValue t.value = .ok t := by
  cases t <;> rfl

/-- Enum round trip for the difficulty level. -/
theorem decodeDifficulty_value (d : DifficultyLevel) :
    decodeDifficulty (.i d.value) = .ok d := by
  cases d <;> rfl

/-- `mapM` over an encoded list succeeds when decode inverts encode pointwise. -/
theorem mapM_ok_of_pointwise {α β : Type} (f : α → β) (g : β → Except String α)
    (h : ∀ a, g (f a) = .ok a) (l : List α) : (l.map f).mapM g = .ok l := by
  induction l with
  | nil => rfl
  | cons a rest ih =>
      rw [List.map_cons, List.mapM_cons, h a, ih]
      rfl

/-- The `_normalize_answer` coercion is the identity on serialized answers. -/
theorem normalizeAnswerLoad_serialize (a : AnswerValue) :
    normalizeAnswerLoad (serialize_answer a) = a := by
  cases a with
  | str s => rfl
  | seq items =>
      show AnswerValue.seq ((items.map JValue.s).map pyStr) = .seq items
      rw [List.map_map]
      congr 1
      calc items.map (pyStr ∘ JValue.s)
          = items.map id := List.map_congr_left (fun a _ => rfl)
        _ = items := List.map_id items

/-- Paragraph decode inverts the payload encoding. -/
theorem decodeParagraph_toJson (p : Paragraph) :
    decodeParagraph (paragraphToJson p) = .ok p := by
  obtain ⟨content, label⟩ := p
  cases label <;> rfl

/-- In the Except monad, binding a success applies the continuation. -/
theorem exceptBind_ok {α β : Type} (a : α) (f : α → Except String β) :
    (Except.ok a >>= f : Except String β) = f a := rfl

/-- Binding a failure propagates it. -/
theorem exceptBind_error {α β : Type} (e : String) (f : α → Except String β) :
    (Except.error e >>= f : Except String β) = .error e := rfl

/-- Mapping over a success applies the function. -/
theorem exceptMap_ok {α β : Type} (a : α) (f : α → β) :
    (f <$> (Except.ok a : Except String α) : Except String β) = .ok (f a) := rfl

set_option maxHeartbeats 12000000 in
/-- Question decode inverts the payload encoding. -/
theorem decodeQuestion_toJson (q : Question) :
    decodeQuestion (questionToJson q) = .ok q := by
  obtain ⟨num, qt, instr, content, ans, expl, cb, occ, cr⟩ := q
  cases expl <;> cases cb <;> cases occ <;> cases cr <;> cases qt <;>
    (conv_rhs => rw [← normalizeAnswerLoad_serialize ans]) <;> rfl

/-- Enum round trip for the difficulty value. -/
theorem difficultyOfValue_value (d : DifficultyLevel) :
    DifficultyLevel.ofValue d.value = .ok d := by
  cases d <;> rfl

/-- Decoding the encoded paragraph list succeeds with the original list. -/
theorem mapM_decodeParagraph (ps : List Paragraph) :
    (ps.map paragraphToJson).mapM decodeParagraph = .ok ps :=
  mapM_ok_of_pointwise _ _ decodeParagraph_toJson ps

/-- Decoding the encoded question list succeeds with the original list. -/
theorem mapM_decodeQuestion (qs : List Question) :
    (qs.map questionToJson).mapM decodeQuestion = .ok qs :=
  mapM_ok_of_pointwise _ _ decodeQuestion_toJson qs

/-- Decoding the encoded question-type list succeeds with the original list. -/
theorem mapM_decodeTypes (ts : List QuestionType) :
    (ts.map (fun t => JValue.s t.value)).mapM
      (fun it => do QuestionType.ofValue (← asStr it)) = .ok ts :=
  mapM_ok_of_pointwise (fun (t : QuestionType) => JValue.s t.value)
    (fun it => do QuestionType.ofValue (← asStr it))
    (fun t => qtypeOfValue_value t) ts

/-- Loading the payload of an exam reduces to running the two validations on
that very exam: the decode phase is lossless. -/
theorem load_toPayload (e : Exam) :
    load_exam_from_json (exam_to_payload e) =
      (do validate_consistency e; validate_answers_present e; pure e) := by
  obtain ⟨eid, ⟨title, paragraphs⟩, questions, ⟨diff, tot, qts⟩⟩ := e
  show (((paragraphs.map paragraphToJson).mapM decodeParagraph >>= fun ps =>
        (questions.map questionToJson).mapM decodeQuestion >>= fun qs =>
        DifficultyLevel.ofValue diff.value >>= fun d =>
        ((qts.map (fun t => JValue.s t.value)).mapM
            (fun it => do QuestionType.ofValue (← asStr it)) >>= fun ts =>
          (validate_consistency
              (Exam.mk eid (Passage.mk title ps) qs (Metadata.mk d tot ts)) >>= fun _ =>
            validate_answers_present
              (Exam.mk eid (Passage.mk title ps) qs (Metadata.mk d tot ts)) >>= fun _ =>
              pure (Exam.mk eid (Passage.mk title ps) qs (Metadata.mk d tot ts))))) :
      Except String Exam) = _
  simp only [mapM_decodeParagraph, mapM_decodeQuestion, mapM_decodeTypes,
    difficultyOfValue_value, exceptBind_ok]

/-- C2: a payload produced by `exam_to_payload` that `load_exam_from_json`
accepts loads to an exam whose re-serialization is structurally identical to
the original payload. -/
theorem c2_payload_roundtrip (e e2 : Exam)
    (h : load_exam_from_json (exam_to_payload e) = .ok e2) :
    exam_to_payload e2 = exam_to_payload e := by
  rw [load_toPayload] at h
  cases hv : validate_consistency e with
  | error msg =>
      rw [hv] at h
      exact Except.noConfusion ((exceptBind_error msg _).symm.trans h)
  | ok u =>
      cases u
      rw [hv] at h
      replace h := (exceptBind_ok () _).symm.trans h
      cases ha : validate_answers_present e with
      | error msg =>
          rw [ha] at h
          exact Except.noConfusion ((exceptBind_error msg _).symm.trans h)
      | ok u2 =>
          cases u2
          rw [ha] at h
          replace h := (exceptBind_ok () _).symm.trans h
          have h3 : Except.ok e = Except.ok e2 := h
          cases Except.ok.inj h3
          rfl

/-- Concrete exam exercising both answer shapes, a labelled and an
unlabelled paragraph, and all four optional question fields. -/
def c2Exam : Exam :=
  { id := "e002",
    passage := { title := "Sample Title",
                 paragraphs := [{ content := "Paragraph content.", label := none },
                                { content := "Second paragraph.", label := some "B" }] },
    questions :=
      [{ questionNumber := 1, type := .trueFalseNg,
         instruction := "Do the statements agree?",
         content := [("statement", JValue.s "Sample statement.")],
         answer := .str "TRUE" },
       { questionNumber := 2, type := .multipleChoiceMultiple,
         instruction := "Choose two letters.",
         content := [("questionText", JValue.s "Which two?")],
         answer := .seq ["A", "B"], explanation := some "Because.",
         checkboxGroupName := some "q2", occupiesQuestions := some 2,
         canReuse := some true }],
    metadata := { difficulty := .p1, totalQuestions := 2,
                  questionTypes := [.trueFalseNg, .multipleChoiceMultiple] } }

/-- C2 witness: the concrete exam loads back from its own payload, and the
round trip preserves the payload. -/
theorem c2_payload_roundtrip_witness :
    load_exam_from_json (exam_to_payload c2Exam) = .ok c2Exam ∧
    exam_to_payload c2Exam = exam_to_payload c2Exam :=
  ⟨rfl, c2_payload_roundtrip c2Exam c2Exam rfl⟩

/-- C10: every paragraph object of the payload carries the `label` key, with
`null` exactly when the paragraph is unlabelled, while each of the four
optional question fields is present exactly when it is set (`Option.map`
sends `none` to an absent key). -/
theorem c10_optional_field_emission (e : Exam) :
    (∀ p ∈ e.passage.paragraphs,
      jObjGet (jEntries (paragraphToJson p)) "label" =
        some (match p.label with
              | some l => JValue.s l
              | none => JValue.null)) ∧
    (∀ q ∈ e.questions,
      jObjGet (jEntries (questionToJson q)) "explanation" = q.explanation.map JValue.s ∧
      jObjGet (jEntries (questionToJson q)) "checkboxGroupName" = q.checkboxGroupName.map JValue.s ∧
      jObjGet (jEntries (questionToJson q)) "occupiesQuestions" = q.occupiesQuestions.map JValue.i ∧
      jObjGet (jEntries (questionToJson q)) "canReuse" = q.canReuse.map JValue.b) := by
  constructor
  · intro p _
    obtain ⟨c, l⟩ := p
    cases l <;> rfl
  · intro q _
    obtain ⟨num, qt, instr, content, ans, expl, cb, occ, cr⟩ := q
    cases expl <;> cases cb <;> cases occ <;> cases cr <;>
      exact ⟨rfl, rfl, rfl, rfl⟩

/-- Unlabelled paragraph for the C10 witness. -/
def c10Par : Paragraph := { content := "Paragraph content.", label := none }

/-- One-question exam holding the C10 witness paragraph. -/
def c10Exam : Exam :=
  { id := "e003", passage := { title := "T", paragraphs := [c10Par] },
    questions := [mkQ 1],
    metadata := { difficulty := .p1, totalQuestions := 1,
                  questionTypes := [.trueFalseNg] } }

/-- C10 witness: the unlabelled paragraph still carries the `label` key with
value `null`, and a question with no explanation has no `explanation` key. -/
theorem c10_optional_field_emission_witness :
    jObjGet (jEntries (paragraphToJson c10Par)) "label" = some JValue.null ∧
    jObjGet (jEntries (questionToJson (mkQ 1))) "explanation" = none :=
  ⟨(c10_optional_field_emission c10Exam).1 c10Par (List.mem_singleton.mpr rfl),
   ((c10_optional_field_emission c10Exam).2 (mkQ 1) (List.mem_singleton.mpr rfl)).1⟩
